import Mathlib

/-!
Shallow embedding of the SYMM-IO solver-multiRPC dispatch engine
(src/src/multirpc/base_multi_rpc_interface.py, gas_estimation.py, utils.py).

Python exceptions are modelled as values of `PyExc`; `isinstance` checks on
exception tuples are modelled through `PyClass` tags with the
`Web3InterfaceException` subclass family made explicit.  Concurrency is
modelled by a completion schedule: each `asyncio.wait(..., FIRST_COMPLETED)`
round is a list of task outcomes in the order the event loop ran them (the
`dones` set iteration order is taken to be that same completion order).
Machine integers do not overflow in the modelled code paths; chain
quantities (wei, GWei, multipliers) are rationals.

The repository files `constants.py` and `tx_trace.py` are imported by the
sources but are not present under src/; the enumerations and constants they
provide (`ViewPolicy`, `GasEstimationMethod`, `DevEnv`, `GasFromRpcChainIds`,
`ChainIdToGas`, `FixedValueGas`, `MaxRPCInEachBracket`) are modelled from the
spec as parameters or as enumerations with the spec's members.
-/

deriving instance DecidableEq for Except

namespace MRpc

/-- Python exception values raised by the modelled code.  Each constructor is
one exception class of `exceptions.py` or of the external libraries
(`requests`, `web3`, `aiohttp`, builtins), carrying its message where one is
used. -/
inductive PyExc where
  | connectionError (msg : String)
  | readTimeout (msg : String)
  | httpError (msg : String)
  | valueError (msg : String)
  | timeoutError (msg : String)
  | timeExhausted (msg : String)
  | transactionNotFound (msg : String)
  | blockNotFound (msg : String)
  | clientResponseError (msg : String)
  | typeError (msg : String)
  | runtimeError (msg : String)
  | web3InterfaceException (msg : String)
  | failedOnAllRPCs (msg : String)
  | outOfRangeTransactionFee (msg : String)
  | failedToGetGasPrice (msg : String)
  | transactionFailedStatus (msg : String)
  | transactionValueError (msg : String)
  | getBlockFailed (msg : String)
  | dontHaveThisRpcType (msg : String)
  | notValidViewPolicy (msg : String)
  | maximumRPCInEachBracketReached
  | atLastProvideOneValidRPCInEachBracket
  deriving DecidableEq, Repr

/-- Exception classes, used in `except (...)` clauses and in the
`exception_handler` lists passed to `__execute_batch_tasks`. -/
inductive PyClass where
  | connectionError
  | readTimeout
  | httpError
  | valueError
  | timeoutError
  | timeExhausted
  | transactionNotFound
  | blockNotFound
  | clientResponseError
  | typeError
  | runtimeError
  | web3InterfaceException
  | failedOnAllRPCs
  | outOfRangeTransactionFee
  | failedToGetGasPrice
  | transactionFailedStatus
  | transactionValueError
  | getBlockFailed
  | dontHaveThisRpcType
  | notValidViewPolicy
  | maximumRPCInEachBracketReached
  | atLastProvideOneValidRPCInEachBracket
  deriving DecidableEq, Repr

/-- The class of an exception value. -/
def PyExc.cls : PyExc → PyClass
  | .connectionError _ => .connectionError
  | .readTimeout _ => .readTimeout
  | .httpError _ => .httpError
  | .valueError _ => .valueError
  | .timeoutError _ => .timeoutError
  | .timeExhausted _ => .timeExhausted
  | .transactionNotFound _ => .transactionNotFound
  | .blockNotFound _ => .blockNotFound
  | .clientResponseError _ => .clientResponseError
  | .typeError _ => .typeError
  | .runtimeError _ => .runtimeError
  | .web3InterfaceException _ => .web3InterfaceException
  | .failedOnAllRPCs _ => .failedOnAllRPCs
  | .outOfRangeTransactionFee _ => .outOfRangeTransactionFee
  | .failedToGetGasPrice _ => .failedToGetGasPrice
  | .transactionFailedStatus _ => .transactionFailedStatus
  | .transactionValueError _ => .transactionValueError
  | .getBlockFailed _ => .getBlockFailed
  | .dontHaveThisRpcType _ => .dontHaveThisRpcType
  | .notValidViewPolicy _ => .notValidViewPolicy
  | .maximumRPCInEachBracketReached => .maximumRPCInEachBracketReached
  | .atLastProvideOneValidRPCInEachBracket => .atLastProvideOneValidRPCInEachBracket

/-- Classes of `exceptions.py` that subclass `Web3InterfaceException`. -/
def PyClass.isWeb3Sub : PyClass → Bool
  | .web3InterfaceException => true
  | .failedOnAllRPCs => true
  | .outOfRangeTransactionFee => true
  | .failedToGetGasPrice => true
  | .transactionFailedStatus => true
  | .transactionValueError => true
  | .getBlockFailed => true
  | .dontHaveThisRpcType => true
  | .notValidViewPolicy => true
  | .maximumRPCInEachBracketReached => true
  | .atLastProvideOneValidRPCInEachBracket => true
  | _ => false

/-- Subclass test between exception classes: every class is a subclass of
itself, and the `exceptions.py` family subclasses `Web3InterfaceException`. -/
def PyClass.subclassOf (c d : PyClass) : Bool :=
  c = d || (d = .web3InterfaceException && c.isWeb3Sub)

/-- Python `isinstance(e, tuple(classes))`. -/
def isinstance (e : PyExc) (cs : List PyClass) : Bool :=
  cs.any (fun c => e.cls.subclassOf c)

/-- Python `str(e)`.  The `Web3InterfaceException` family formats itself as
`ClassName(args[0])` (its custom `__str__`), other classes print their
message. -/
def pyStr : PyExc → String
  | .connectionError m => m
  | .readTimeout m => m
  | .httpError m => m
  | .valueError m => m
  | .timeoutError m => m
  | .timeExhausted m => m
  | .transactionNotFound m => m
  | .blockNotFound m => m
  | .clientResponseError m => m
  | .typeError m => m
  | .runtimeError m => m
  | .web3InterfaceException m => "Web3InterfaceException(" ++ m ++ ")"
  | .failedOnAllRPCs m => "FailedOnAllRPCs(" ++ m ++ ")"
  | .outOfRangeTransactionFee m => "OutOfRangeTransactionFee(" ++ m ++ ")"
  | .failedToGetGasPrice m => "FailedToGetGasPrice(" ++ m ++ ")"
  | .transactionFailedStatus m => "TransactionFailedStatus(" ++ m ++ ")"
  | .transactionValueError m => "TransactionValueError(" ++ m ++ ")"
  | .getBlockFailed m => "GetBlockFailed(" ++ m ++ ")"
  | .dontHaveThisRpcType m => "DontHaveThisRpcType(" ++ m ++ ")"
  | .notValidViewPolicy m => "NotValidViewPolicy(" ++ m ++ ")"
  | .maximumRPCInEachBracketReached => "MaximumRPCInEachBracketReached"
  | .atLastProvideOneValidRPCInEachBracket => "AtLastProvideOneValidRPCInEachBracket"

/-- Outcome of one endpoint task once it completes: a value or a raised
exception. -/
inductive TaskOutcome (α : Type) where
  | ok (v : α)
  | err (e : PyExc)
  deriving DecidableEq, Repr

/-- One `asyncio.wait(..., return_when=FIRST_COMPLETED)` round: the outcomes
of the tasks that completed in that round, in event-loop completion order. -/
abbrev Round (α : Type) := List (TaskOutcome α)

/-- The successful values of a round, in completion order. -/
def oksOf {α : Type} (r : Round α) : List α :=
  r.filterMap fun o => match o with | .ok v => some v | .err _ => none

/-- The raised exceptions of a round, in completion order. -/
def errsOf {α : Type} (r : Round α) : List PyExc :=
  r.filterMap fun o => match o with | .err e => some e | .ok _ => none

/-- The `ResultEvent` of `utils.py`: an `asyncio.Event` extended with a result
cell.  `set_result` assigns the cell unconditionally. -/
structure ResultEvent (α : Type) where
  result_ : Option α
  flag : Bool
  deriving DecidableEq, Repr

/-- A fresh `ResultEvent()`: no result, event not set. -/
def ResultEvent.init (α : Type) : ResultEvent α := ⟨none, false⟩

/-- The `set_result` method of `ResultEvent`: overwrites the cell. -/
def ResultEvent.set_result {α : Type} (e : ResultEvent α) (r : α) : ResultEvent α :=
  { e with result_ := some r }

/-- The inherited `Event.set`. -/
def ResultEvent.setFlag {α : Type} (e : ResultEvent α) : ResultEvent α :=
  { e with flag := true }

/-- The `get_result` method of `ResultEvent`. -/
def ResultEvent.get_result {α : Type} (e : ResultEvent α) : Option α :=
  e.result_

/-- State of one `__execute_batch_tasks` run: the shared `ResultEvent`
(`cancel_event`), the remembered soft failure (`exception`) and the
remembered terminal failure (`terminal_exception`). -/
structure BatchState (α : Type) where
  ev : ResultEvent α
  softE : Option PyExc
  termE : Option PyExc
  deriving DecidableEq, Repr

/-- Initial state of `__execute_batch_tasks`. -/
def initBatch (α : Type) : BatchState α := ⟨ResultEvent.init α, none, none⟩

/-- The `exec_task` wrappers of the tasks completing in one round: each
successful task records its result under the lock (`set_result`, overwriting
whatever was there) and sets the event; failing tasks leave the cell alone. -/
def stepWrites {α : Type} (s : BatchState α) (r : Round α) : BatchState α :=
  r.foldl (fun s o => match o with
    | .ok v => { s with ev := (s.ev.set_result v).setFlag }
    | .err _ => s) s

/-- The `for task in list(dones)` classification loop: an exception is
remembered as soft when the handler list is non-empty and matches it,
otherwise as terminal; a completed non-failing task breaks out of the loop
as soon as the completion event is observed set. -/
def stepClassify {α : Type} (soft : List PyClass) : BatchState α → Round α → BatchState α
  | s, [] => s
  | s, .err e :: rest =>
      let s' := if soft ≠ [] ∧ isinstance e soft then { s with softE := some e }
                else { s with termE := some e }
      stepClassify soft s' rest
  | s, .ok _ :: rest => if s.ev.flag then s else stepClassify soft s rest

/-- Processing of one completion round: the completed tasks have already run
their `exec_task` writes by the time `asyncio.wait` returns, then the round
is classified. -/
def stepRound {α : Type} (soft : List PyClass) (s : BatchState α) (r : Round α) : BatchState α :=
  stepClassify soft (stepWrites s r) r

/-- The stopping condition of the `while` loop of `__execute_batch_tasks`:
`cancel_event.is_set() or terminal_exception`. -/
def stopCond {α : Type} (s : BatchState α) : Bool :=
  s.ev.flag || s.termE.isSome

/-- The `while len(not_completed_tasks) > 0` loop: process completion rounds
until the stop condition holds or every task has completed; returns the final
state and the rounds that never ran (their tasks are cancelled and drained by
the closing `asyncio.gather`). -/
def execRounds {α : Type} (soft : List PyClass) :
    BatchState α → List (Round α) → BatchState α × List (Round α)
  | s, [] => (s, [])
  | s, r :: rs =>
      let s1 := stepRound soft s r
      if stopCond s1 then (s1, rs) else execRounds soft s1 rs

/-- The `__execute_batch_tasks` static method of `BaseMultiRpc`, as a function
of the completion schedule: returns the recorded result when the completion
event was set, otherwise raises `terminal_exception or exception`, otherwise
`final_exception or RuntimeError(...)`. -/
def executeBatchTasks {α : Type} (rounds : List (Round α)) (soft : List PyClass)
    (finalE : Option PyExc) : Except PyExc α :=
  let s := (execRounds soft (initBatch α) rounds).1
  if s.ev.flag then
    match s.ev.get_result with
    | some v => .ok v
    | none => .error (.runtimeError "event set without a result")
  else
    match s.termE with
    | some e => .error e
    | none =>
      match s.softE with
      | some e => .error e
      | none =>
        .error (finalE.getD
          (.runtimeError "Execution completed without setting a result or exception."))

/-- The rounds actually processed by `__execute_batch_tasks` before it stopped
(the completion rounds whose tasks were awaited rather than cancelled). -/
def processedRounds {α : Type} (soft : List PyClass) (rounds : List (Round α)) :
    List (Round α) :=
  rounds.take (rounds.length - (execRounds soft (initBatch α) rounds).2.length)

/-- Sequential classification of a list of exceptions, starting from a given
(soft, terminal) pair: the last matching exception of each band is kept, as
in the overwriting assignments of `__execute_batch_tasks`. -/
def classifyPair (soft : List PyClass) (p : Option PyExc × Option PyExc)
    (es : List PyExc) : Option PyExc × Option PyExc :=
  es.foldl (fun p e =>
    if soft ≠ [] ∧ isinstance e soft then (some e, p.2) else (p.1, some e)) p

/-- Classification of a list of exceptions into the remembered soft failure
and the remembered terminal failure. -/
def classifyErrs (soft : List PyClass) (es : List PyExc) :
    Option PyExc × Option PyExc :=
  classifyPair soft (none, none) es

/-- All exceptions raised across a list of completion rounds, in order. -/
def allErrs {α : Type} (rs : List (Round α)) : List PyExc :=
  rs.foldr (fun r acc => errsOf r ++ acc) []

/-- Modelled from the spec: `ViewPolicy` lives in `constants.py`, which is not
under src/.  The spec names the two read-reconciliation policies MostUpdated
and FirstSuccess. -/
inductive ViewPolicy where
  | mostUpdated
  | firstSuccess
  deriving DecidableEq, Repr

/-- The MostUpdated branch of `BaseMultiRpc.__gather_tasks`: wait for every
task, collect results and exceptions in endpoint order (the thread pool's
`executor.map` yields in submission order); if nothing succeeded raise
`FailedOnAllRPCs` carrying the first exception, else apply the selector to
the successful results. -/
def gatherTasksMU {α β : Type} (outcomes : List (TaskOutcome α))
    (selector : List α → β) : Except PyExc β :=
  let results := oksOf outcomes
  let exceptions := errsOf outcomes
  match results with
  | [] =>
    match exceptions with
    | [] => .error (.runtimeError "IndexError: list index out of range")
    | e0 :: _ =>
      .error (.failedOnAllRPCs
        ("All of RPCs raise exception. first exception: " ++ pyStr e0))
  | _ :: _ => .ok (selector results)

/-- The soft-error classes of the FirstSuccess branch of `__gather_tasks`. -/
def firstSuccessViewSoft : List PyClass := [.httpError, .connectionError, .valueError]

/-- The `__gather_tasks` static method: MostUpdated waits for all tasks;
FirstSuccess hands the execution list to `__execute_batch_tasks` with soft
errors {HTTPError, ConnectionError, ValueError} and final exception
`FailedOnAllRPCs`, and applies the selector to the singleton result list. -/
def gatherTasks {α β : Type} (policy : ViewPolicy) (outcomes : List (TaskOutcome α))
    (rounds : List (Round α)) (selector : List α → β) : Except PyExc β :=
  match policy with
  | .mostUpdated => gatherTasksMU outcomes selector
  | .firstSuccess =>
      (executeBatchTasks rounds firstSuccessViewSoft (some (.failedOnAllRPCs ""))).map
        (fun v => selector [v])

/-- One multicall result as consumed by `max_block_finder`: the tuple
`(block_number, block_hash, [decoded_values])` returned per endpoint. -/
structure MCResult (γ : Type) where
  block : ℤ
  blockHash : ℕ
  vals : List γ
  deriving DecidableEq, Repr

/-- The scanning loop of `max_block_finder`: `i` is the index of the next
element, `mb` the best block seen, `best` its index; a strictly greater block
updates both. -/
def maxLoop {γ : Type} : List (MCResult γ) → ℕ → ℤ → ℕ → ℕ
  | [], _, _, best => best
  | r :: rest, i, mb, best =>
      if r.block > mb then maxLoop rest (i + 1) r.block i
      else maxLoop rest (i + 1) mb best

/-- The `max_block_finder` selector of `_call_view_function`: start from the
first result's block, scan for a strictly larger block (so ties keep the
first index), and return the first decoded value of the winning endpoint.
`none` models the Python index errors on empty input, which the caller's
non-empty-results check rules out. -/
def maxBlockFinder {γ : Type} (results : List (MCResult γ)) : Option γ :=
  match results with
  | [] => none
  | r0 :: _ =>
      let best := maxLoop results 0 r0.block 0
      (results.get? best).bind (fun r => r.vals.head?)

/-- Per-sub-bracket inputs of a view fan-out: the per-endpoint outcomes in
endpoint order (consumed by the MostUpdated branch) and the completion
schedule (consumed by the FirstSuccess branch). -/
structure ViewSubSchedule (α : Type) where
  outcomes : List (TaskOutcome α)
  rounds : List (Round α)

/-- The sub-bracket loop of `_call_view_function`: gather each sub-bracket
under the façade's view policy with selector `max_block_finder`; on
`Web3InterfaceException` or `asyncio.TimeoutError` move to the next
sub-bracket; if every sub-bracket fails raise
`Web3InterfaceException("All of RPCs raise exception.")`.  Other exceptions
propagate to the caller unchanged. -/
def callViewFunction {γ : Type} (policy : ViewPolicy) :
    List (ViewSubSchedule (MCResult γ)) → Except PyExc (Option γ)
  | [] => .error (.web3InterfaceException "All of RPCs raise exception.")
  | sub :: rest =>
    match gatherTasks policy sub.outcomes sub.rounds maxBlockFinder with
    | .ok v => .ok v
    | .error e =>
        if isinstance e [.web3InterfaceException, .timeoutError] then
          callViewFunction policy rest
        else .error e

/-- The sub-bracket loop of `_get_nonce`: gather `get_transaction_count` over
every endpoint of the sub-bracket with the default MostUpdated policy and
selector `max`; tolerate `Web3InterfaceException` and `asyncio.TimeoutError`
by moving to the next sub-bracket; raise the generic
`Web3InterfaceException` when every sub-bracket fails.  The selector is
Python's `max`, modelled by `List.max?` (the gather only applies it to a
non-empty result list). -/
def getNonceLoop : List (List (TaskOutcome ℕ)) → Except PyExc (Option ℕ)
  | [] => .error (.web3InterfaceException "All of RPCs raise exception.")
  | sub :: rest =>
    match gatherTasksMU sub List.max? with
    | .ok v => .ok v
    | .error e =>
        if isinstance e [.web3InterfaceException, .timeoutError] then
          getNonceLoop rest
        else .error e

/-- The `_get_nonce` method: target `providers.get('view') or
providers['transaction']` (the transaction bracket when the view bracket is
absent or empty) and run the sub-bracket loop over it. -/
def getNonce (viewB : Option (List (List (TaskOutcome ℕ))))
    (txB : List (List (TaskOutcome ℕ))) : Except PyExc (Option ℕ) :=
  let brackets := match viewB with
    | some vb => if vb.isEmpty then txB else vb
    | none => txB
  getNonceLoop brackets

/-- The bracket loop of `create_web3_from_rpc` (`utils.py`): for each
sub-bracket of URLs (each URL tagged with the outcome of its reachability
probe), fail fast with `MaximumRPCInEachBracketReached` when the list is
longer than `MaxRPCInEachBracket`, drop unreachable URLs, fail fast with
`AtLastProvideOneValidRPCInEachBracket` when no live endpoint remains, and
otherwise keep the live endpoints.  `MaxRPCInEachBracket` lives in the
missing `constants.py` and is a parameter here. -/
def createWeb3FromRpc {υ : Type} (maxN : ℕ) :
    List (List (υ × Bool)) → Except PyExc (List (List υ))
  | [] => .ok []
  | rpcs :: rest =>
    if maxN < rpcs.length then .error .maximumRPCInEachBracketReached
    else
      let valid := (rpcs.filter (fun u => u.2)).map (fun u => u.1)
      if valid.isEmpty then .error .atLastProvideOneValidRPCInEachBracket
      else (createWeb3FromRpc maxN rest).map (fun tl => valid :: tl)

/-- The offence of one bracket under the setup checks of
`create_web3_from_rpc`, checked in source order: oversize first, then zero
live endpoints. -/
def bracketOffense {υ : Type} (maxN : ℕ) (rpcs : List (υ × Bool)) : Option PyExc :=
  if maxN < rpcs.length then some .maximumRPCInEachBracketReached
  else if ((rpcs.filter (fun u => u.2)).map (fun u => u.1)).isEmpty then
    some .atLastProvideOneValidRPCInEachBracket
  else none

/-- The transaction priorities of `utils.py`. -/
inductive TxPriority where
  | low
  | medium
  | high
  deriving DecidableEq, Repr

/-- Modelled from the spec: `GasEstimationMethod` lives in the missing
`constants.py`; `gas_estimation.py` dispatches on its four members
GAS_API_PROVIDER, RPC, FIXED and CUSTOM. -/
inductive GasEstimationMethod where
  | gasApiProvider
  | rpc
  | fixed
  | custom
  deriving DecidableEq, Repr

/-- Gas Parameters returned by the estimator: either the typed-fee pair (from
the gas API) or a legacy `gasPrice`, in wei. -/
inductive GasParams where
  | typed (maxFeePerGas maxPriorityFeePerGas : ℚ)
  | legacy (gasPrice : ℚ)
  deriving DecidableEq, Repr

/-- The fee field the ceiling applies to: `maxFeePerGas` for typed-fee
parameters, `gasPrice` for legacy ones (both in wei here). -/
def selectedFee : GasParams → ℚ
  | .typed f _ => f
  | .legacy g => g

/-- Outcome of `provider.eth.gas_price` on one endpoint in
`_get_gas_from_rpc`: a wei price, a soft failure (ConnectionError /
ReadTimeout / ValueError / ConnectionResetError, logged and skipped), or an
`aiohttp.ClientResponseError`, which is always re-raised. -/
inductive RpcGasFetch where
  | ok (wei : ℚ)
  | softFail
  | hardFail (msg : String)
  deriving DecidableEq, Repr

/-- One `GasEstimation` instance together with its environment: the
constructor state (chain id, default method, priority multipliers) and the
observable behaviour of its collaborators.  `devEnv`, `gasFromRpcChainIds`,
`chainIdToGas` and `fixedValueGas` are the constants of the missing
`constants.py`, kept as parameters; `apiQuote` is the parsed
(`suggestedMaxFeePerGas`, `suggestedMaxPriorityFeePerGas`) pair in GWei for
each priority key, `none` when the request, the JSON parse or the key lookup
fails. -/
structure GasEnv where
  chainId : ℤ
  defaultMethod : Option GasEstimationMethod
  mult : TxPriority → ℚ
  apiQuote : TxPriority → Option (ℚ × ℚ)
  rpcReports : List RpcGasFetch
  devEnv : Bool
  gasFromRpcChainIds : List ℤ
  chainIdToGas : ℤ → Option ℚ
  fixedValueGas : ℚ

/-- The `_get_gas_from_api` method: on a parsed quote whose max fee (GWei)
exceeds the ceiling raise `OutOfRangeTransactionFee`; otherwise convert both
fields to wei (`Web3.to_wei(x, "GWei")`); transport and parse failures become
`FailedToGetGasPrice`. -/
def getGasFromApi (env : GasEnv) (priority : TxPriority) (gasUpperBound : ℚ) :
    Except PyExc GasParams :=
  match env.apiQuote priority with
  | none => .error (.failedToGetGasPrice "Failed to get gas info from api")
  | some (maxFee, maxPrio) =>
      if maxFee > gasUpperBound then
        .error (.outOfRangeTransactionFee "gas price exceeded")
      else
        .ok (.typed (maxFee * 10 ^ 9) (maxPrio * 10 ^ 9))

/-- The endpoint loop of `_get_gas_from_rpc`: remember the last price an
endpoint reported; stop as soon as one is at most the ceiling in GWei; skip
soft failures; re-raise `ClientResponseError`.  Returns the remembered price
and whether one below the ceiling was found. -/
def rpcGasLoop (gasUpperBound : ℚ) : List RpcGasFetch → Option ℚ →
    Except PyExc (Option ℚ × Bool)
  | [], cur => .ok (cur, false)
  | .ok w :: rest, cur =>
      if w / 10 ^ 9 ≤ gasUpperBound then .ok (some w, true)
      else rpcGasLoop gasUpperBound rest (some w)
  | .softFail :: rest, cur => rpcGasLoop gasUpperBound rest cur
  | .hardFail m :: _, _ => .error (.clientResponseError m)

/-- The `_get_gas_from_rpc` method: if no endpoint reported any price raise
`FailedToGetGasPrice`; if none was below the ceiling raise
`OutOfRangeTransactionFee`; otherwise return the found wei price times the
priority multiplier as a legacy `gasPrice`. -/
def getGasFromRpc (env : GasEnv) (priority : TxPriority) (gasUpperBound : ℚ) :
    Except PyExc GasParams :=
  match rpcGasLoop gasUpperBound env.rpcReports none with
  | .error e => .error e
  | .ok (none, _) => .error (.failedToGetGasPrice "Non of RCP could provide gas price!")
  | .ok (some w, found) =>
      if found then .ok (.legacy (w * env.mult priority))
      else .error (.outOfRangeTransactionFee "gas price exceeded")

/-- The `_get_fixed_value` method: look the chain id up in the fixed table
(`ChainIdToGas.get(chain_id) or FixedValueGas`, so a zero table entry also
falls back), enforce the ceiling in GWei, then convert the multiplied value
to wei. -/
def getFixedValue (env : GasEnv) (priority : TxPriority) (gasUpperBound : ℚ) :
    Except PyExc GasParams :=
  let gas := match env.chainIdToGas env.chainId with
    | some g => if g = 0 then env.fixedValueGas else g
    | none => env.fixedValueGas
  if gas > gasUpperBound then .error (.outOfRangeTransactionFee "gas price exceeded")
  else .ok (.legacy (gas * env.mult priority * 10 ^ 9))

/-- The `_custom_gas_estimation` hook: the body is `raise NotImplemented()`,
and `NotImplemented` is not callable, so a `TypeError` is raised. -/
def customGasEstimation (env : GasEnv) (priority : TxPriority) (gasUpperBound : ℚ) :
    Except PyExc GasParams :=
  .error (.typeError "NotImplementedType object is not callable")

/-- The `gas_estimation_method` dispatch table. -/
def runMethod (m : GasEstimationMethod) (env : GasEnv) (priority : TxPriority)
    (gasUpperBound : ℚ) : Except PyExc GasParams :=
  match m with
  | .gasApiProvider => getGasFromApi env priority gasUpperBound
  | .rpc => getGasFromRpc env priority gasUpperBound
  | .fixed => getFixedValue env priority gasUpperBound
  | .custom => customGasEstimation env priority gasUpperBound

/-- The `method_sorted_priority` list of `GasEstimation`. -/
def methodSortedPriority : List GasEstimationMethod :=
  [.gasApiProvider, .rpc, .fixed, .custom]

/-- The auto-cascade loop of `get_gas_price`: try each method in order,
stopping at the first that returns; `FailedToGetGasPrice` and
`OutOfRangeTransactionFee` move to the next method, any other exception
propagates; when the loop exhausts with nothing, raise
`FailedToGetGasPrice("All of methods failed to estimate gas")`. -/
def gasCascade (env : GasEnv) (priority : TxPriority) (gasUpperBound : ℚ) :
    List GasEstimationMethod → Except PyExc GasParams
  | [] => .error (.failedToGetGasPrice "All of methods failed to estimate gas")
  | m :: ms =>
    match runMethod m env priority gasUpperBound with
    | .ok g => .ok g
    | .error e =>
        if isinstance e [.failedToGetGasPrice, .outOfRangeTransactionFee] then
          gasCascade env priority gasUpperBound ms
        else .error e

/-- The `get_gas_price` method: a caller-named method, or failing that the
instance's default method, is used alone and its failure propagates;
otherwise `DevEnv` or membership of the chain id in `GasFromRpcChainIds`
forces the RPC method; otherwise the cascade runs over
`method_sorted_priority`. -/
def getGasPrice (env : GasEnv) (gasUpperBound : ℚ) (priority : TxPriority)
    (method : Option GasEstimationMethod) : Except PyExc GasParams :=
  match method with
  | some m => runMethod m env priority gasUpperBound
  | none =>
    match env.defaultMethod with
    | some m => runMethod m env priority gasUpperBound
    | none =>
      if env.devEnv || env.chainId ∈ env.gasFromRpcChainIds then
        getGasFromRpc env priority gasUpperBound
      else
        gasCascade env priority gasUpperBound methodSortedPriority

/-- The transaction parameters assembled by `_get_tx_params`: `from`,
`nonce`, `gas`, `chainId` plus the estimator's gas parameters.  The sender
address is left abstract as a number. -/
structure TxParams where
  sender : ℕ
  nonce : ℕ
  gas : ℕ
  chainId : ℤ
  gasParams : GasParams
  deriving DecidableEq, Repr

/-- The completion schedules of one `__call_tx` attempt over one transaction
sub-bracket: the broadcast race over `_send_transaction` (each successful
task yields the `(provider, transaction)` pair) and the confirmation race
over `_wait_and_get_tx_receipt` (each successful task yields the
`(provider, tx_receipt)` pair).  Providers are abstract identifiers. -/
structure TxSchedule (τ σ : Type) where
  broadcast : List (Round (ℕ × τ))
  confirm : List (Round (ℕ × σ))

/-- Result of `__call_tx`: the tx hash when `wait_for_receipt` is falsy, else
the receipt. -/
inductive TxCallResult (σ : Type) where
  | hash
  | receipt (r : σ)
  deriving DecidableEq, Repr

/-- The soft-error classes of the broadcast race in `__call_tx`. -/
def broadcastSoft : List PyClass :=
  [.transactionValueError, .valueError, .connectionError, .readTimeout, .httpError]

/-- The soft-error classes of the confirmation race in `__call_tx`. -/
def confirmSoft : List PyClass :=
  [.timeExhausted, .transactionNotFound, .connectionError]

/-- The `__call_tx` method over one transaction sub-bracket:
`_build_and_sign_transaction` runs first (the caller records the signed
payload), then the broadcast race with final exception `FailedOnAllRPCs`;
when `wait_for_receipt` is zero the tx hash is returned, otherwise the
confirmation race runs with no final exception. -/
def callTx {τ σ : Type} (waitForReceipt : ℕ) (sch : TxSchedule τ σ) :
    Except PyExc (TxCallResult σ) :=
  match executeBatchTasks sch.broadcast broadcastSoft (some (.failedOnAllRPCs "")) with
  | .error e => .error e
  | .ok _ =>
    if waitForReceipt = 0 then .ok .hash
    else
      match executeBatchTasks sch.confirm confirmSoft none with
      | .error e => .error e
      | .ok (_, rcpt) => .ok (.receipt rcpt)

/-- The exception classes on which `_call_tx_function` escalates to the next
transaction sub-bracket. -/
def escalClasses : List PyClass :=
  [.connectionError, .readTimeout, .timeExhausted, .transactionNotFound, .failedOnAllRPCs]

/-- The exception classes `_call_tx_function` re-raises before the escalation
check. -/
def fatalClasses : List PyClass := [.transactionFailedStatus, .transactionValueError]

/-- The sub-bracket loop of `_call_tx_function`: call `__call_tx` on each
transaction sub-bracket with the same already-built `tx_params`;
`TransactionFailedStatus`/`TransactionValueError` and unknown exceptions
propagate; the escalation classes move to the next sub-bracket; exhaustion
raises the generic `Web3InterfaceException`.  The second component records
the `tx_params` passed to `_build_and_sign_transaction`, once per attempted
sub-bracket: its length is the number of signed payloads produced. -/
def callTxLoop {τ σ : Type} (txParams : TxParams) (waitForReceipt : ℕ) :
    List (TxSchedule τ σ) → Except PyExc (TxCallResult σ) × List TxParams
  | [] => (.error (.web3InterfaceException "All of RPCs raise exception."), [])
  | sch :: rest =>
    match callTx waitForReceipt sch with
    | .ok v => (.ok v, [txParams])
    | .error e =>
        if isinstance e fatalClasses then (.error e, [txParams])
        else if isinstance e escalClasses then
          let r := callTxLoop txParams waitForReceipt rest
          (r.1, txParams :: r.2)
        else (.error e, [txParams])

/-- The number of leading sub-brackets whose `__call_tx` attempt fails with
an escalation-class exception (and not a fatal one). -/
def countEscal {τ σ : Type} (waitForReceipt : ℕ) :
    List (TxSchedule τ σ) → ℕ
  | [] => 0
  | sch :: rest =>
    match callTx waitForReceipt sch with
    | .ok _ => 0
    | .error e =>
        if isinstance e fatalClasses then 0
        else if isinstance e escalClasses then countEscal waitForReceipt rest + 1
        else 0

/-- The `_call_tx_function` method: acquire the nonce (stage 1), build the
transaction parameters through the gas estimator (stage 2), then run the
sub-bracket loop, signing inside every attempt (stages 3-5 of the spec).
The recorded list of signed `tx_params` is returned alongside the result. -/
def callTxFunction {τ σ : Type} (nonceView : Option (List (List (TaskOutcome ℕ))))
    (nonceTx : List (List (TaskOutcome ℕ))) (env : GasEnv) (gasUpperBound : ℚ)
    (priority : TxPriority) (method : Option GasEstimationMethod)
    (sender gasLimit : ℕ) (waitForReceipt : ℕ)
    (schedules : List (TxSchedule τ σ)) :
    Except PyExc (TxCallResult σ) × List TxParams :=
  match getNonce nonceView nonceTx with
  | .error e => (.error e, [])
  | .ok none => (.error (.valueError "max() arg is an empty sequence"), [])
  | .ok (some n) =>
    match getGasPrice env gasUpperBound priority method with
    | .error e => (.error e, [])
    | .ok gp =>
      callTxLoop ⟨sender, n, gasLimit, env.chainId, gp⟩ waitForReceipt schedules

/-! ### Helper lemmas about the first-success executor -/

theorem stepClassify_ev {α : Type} (soft : List PyClass) (s : BatchState α)
    (r : Round α) : (stepClassify soft s r).ev = s.ev := by
  induction r generalizing s with
  | nil => rfl
  | cons o rest ih =>
    cases o with
    | ok v =>
      simp only [stepClassify]
      split
      · rfl
      · exact ih s
    | err e =>
      simp only [stepClassify]
      split <;> exact ih _

theorem stepWrites_eq {α : Type} (s : BatchState α) (r : Round α) :
    stepWrites s r =
      ⟨(oksOf r).foldl (fun e v => (e.set_result v).setFlag) s.ev, s.softE, s.termE⟩ := by
  induction r generalizing s with
  | nil => rfl
  | cons o rest ih =>
    cases o with
    | ok v =>
      simpa [stepWrites, oksOf, List.foldl_cons] using
        ih ⟨(s.ev.set_result v).setFlag, s.softE, s.termE⟩
    | err e =>
      simpa [stepWrites, oksOf, List.foldl_cons] using ih s

theorem evFold_flag {α : Type} (e : ResultEvent α) (vs : List α) :
    (vs.foldl (fun e v => (e.set_result v).setFlag) e).flag = (e.flag || !vs.isEmpty) := by
  induction vs generalizing e with
  | nil => simp
  | cons v rest ih =>
    rw [List.foldl_cons, ih]
    simp [ResultEvent.set_result, ResultEvent.setFlag]

theorem evFold_result_last {α : Type} (e : ResultEvent α) (vs : List α) (h : vs ≠ []) :
    (vs.foldl (fun e v => (e.set_result v).setFlag) e).result_ = vs.getLast? := by
  induction vs generalizing e with
  | nil => exact absurd rfl h
  | cons v rest ih =>
    cases rest with
    | nil => simp [ResultEvent.set_result, ResultEvent.setFlag]
    | cons w ws =>
      simpa [List.foldl_cons, List.getLast?_cons_cons] using
        ih ((e.set_result v).setFlag) (by simp)

theorem stepRound_ev {α : Type} (soft : List PyClass) (s : BatchState α) (r : Round α) :
    (stepRound soft s r).ev =
      (oksOf r).foldl (fun e v => (e.set_result v).setFlag) s.ev := by
  rw [stepRound, stepClassify_ev, stepWrites_eq]

theorem foldRounds_flag_mono {α : Type} (soft : List PyClass) (rs : List (Round α))
    (s : BatchState α) (h : s.ev.flag = true) :
    ((rs.foldl (stepRound soft) s).ev.flag) = true := by
  induction rs generalizing s with
  | nil => exact h
  | cons r rest ih =>
    refine ih (stepRound soft s r) ?_
    rw [stepRound_ev, evFold_flag, h]
    rfl

theorem foldRounds_flag_of_ok {α : Type} (soft : List PyClass) (rs : List (Round α))
    (s : BatchState α) (h : ∃ r ∈ rs, oksOf r ≠ []) :
    ((rs.foldl (stepRound soft) s).ev.flag) = true := by
  induction rs generalizing s with
  | nil => simp at h
  | cons r rest ih =>
    rcases h with ⟨r', hr', hne⟩
    rcases List.mem_cons.mp hr' with rfl | hmem
    · refine foldRounds_flag_mono soft rest (stepRound soft s r') ?_
      rw [stepRound_ev, evFold_flag]
      simp [List.isEmpty_iff, hne]
    · exact ih (stepRound soft s r) ⟨r', hmem, hne⟩

theorem foldRounds_result_mem {α : Type} (soft : List PyClass) (rs : List (Round α))
    (s : BatchState α) (v : α)
    (h : (rs.foldl (stepRound soft) s).ev.result_ = some v) :
    (∃ r ∈ rs, v ∈ oksOf r) ∨ s.ev.result_ = some v := by
  induction rs generalizing s with
  | nil => exact Or.inr h
  | cons r rest ih =>
    rcases ih (stepRound soft s r) h with hrest | hhere
    · rcases hrest with ⟨r', hr', hv⟩
      exact Or.inl ⟨r', List.mem_cons_of_mem _ hr', hv⟩
    · rw [stepRound_ev] at hhere
      by_cases hok : oksOf r = []
      · rw [hok] at hhere
        exact Or.inr hhere
      · rw [evFold_result_last _ _ hok] at hhere
        rcases List.mem_getLast?_eq_getLast (Option.mem_def.mpr hhere) with ⟨hne2, hv⟩
        exact Or.inl ⟨r, List.mem_cons_self r rest, hv ▸ List.getLast_mem hne2⟩

theorem foldRounds_flag_some {α : Type} (soft : List PyClass) (rs : List (Round α))
    (s : BatchState α) (hinv : s.ev.flag = true → s.ev.result_.isSome = true)
    (h : (rs.foldl (stepRound soft) s).ev.flag = true) :
    ((rs.foldl (stepRound soft) s).ev.result_).isSome = true := by
  induction rs generalizing s with
  | nil => exact hinv h
  | cons r rest ih =>
    refine ih (stepRound soft s r) ?_ h
    intro hf
    rw [stepRound_ev] at *
    by_cases hok : oksOf r = []
    · rw [hok] at hf ⊢
      exact hinv hf
    · rw [evFold_result_last _ _ hok, List.getLast?_eq_getLast_of_ne_nil hok]
      rfl

theorem stepWrites_no_ok {α : Type} (s : BatchState α) (r : Round α)
    (h : oksOf r = []) : stepWrites s r = s := by
  rw [stepWrites_eq, h]
  rfl

theorem stepClassify_no_ok {α : Type} (soft : List PyClass) (s : BatchState α)
    (r : Round α) (h : oksOf r = []) :
    stepClassify soft s r =
      ⟨s.ev, (classifyPair soft (s.softE, s.termE) (errsOf r)).1,
        (classifyPair soft (s.softE, s.termE) (errsOf r)).2⟩ := by
  induction r generalizing s with
  | nil => rfl
  | cons o rest ih =>
    cases o with
    | ok v => simp [oksOf] at h
    | err e =>
      have h' : oksOf rest = [] := by simpa [oksOf] using h
      simp only [stepClassify, errsOf, List.filterMap_cons, classifyPair, List.foldl_cons]
      by_cases hc : soft ≠ [] ∧ isinstance e soft
      · simp only [if_pos hc]
        simpa [classifyPair, errsOf] using ih ⟨s.ev, some e, s.termE⟩ h'
      · simp only [if_neg hc]
        simpa [classifyPair, errsOf] using ih ⟨s.ev, s.softE, some e⟩ h'

theorem stepRound_no_ok {α : Type} (soft : List PyClass) (s : BatchState α)
    (r : Round α) (h : oksOf r = []) :
    stepRound soft s r =
      ⟨s.ev, (classifyPair soft (s.softE, s.termE) (errsOf r)).1,
        (classifyPair soft (s.softE, s.termE) (errsOf r)).2⟩ := by
  rw [stepRound, stepWrites_no_ok s r h, stepClassify_no_ok soft s r h]

theorem classifyPair_append (soft : List PyClass) (p : Option PyExc × Option PyExc)
    (es1 es2 : List PyExc) :
    classifyPair soft p (es1 ++ es2) = classifyPair soft (classifyPair soft p es1) es2 := by
  simp [classifyPair, List.foldl_append]

theorem foldRounds_no_ok {α : Type} (soft : List PyClass) (rs : List (Round α))
    (s : BatchState α) (h : ∀ r ∈ rs, oksOf r = []) :
    rs.foldl (stepRound soft) s =
      ⟨s.ev, (classifyPair soft (s.softE, s.termE) (allErrs rs)).1,
        (classifyPair soft (s.softE, s.termE) (allErrs rs)).2⟩ := by
  induction rs generalizing s with
  | nil => rfl
  | cons r rest ih =>
    have hr : oksOf r = [] := h r (List.mem_cons_self r rest)
    have hrest : ∀ r' ∈ rest, oksOf r' = [] := fun r' hr' => h r' (List.mem_cons_of_mem _ hr')
    rw [List.foldl_cons, stepRound_no_ok soft s r hr, ih _ hrest]
    show _ = ⟨s.ev, _, _⟩
    rw [show allErrs (r :: rest) = errsOf r ++ allErrs rest from rfl,
      classifyPair_append]

theorem execRounds_suffix {α : Type} (soft : List PyClass) (rounds : List (Round α))
    (s : BatchState α) :
    ∃ k, k ≤ rounds.length ∧
      execRounds soft s rounds = ((rounds.take k).foldl (stepRound soft) s, rounds.drop k) := by
  induction rounds generalizing s with
  | nil => exact ⟨0, Nat.le_refl 0, rfl⟩
  | cons r rest ih =>
    by_cases hstop : stopCond (stepRound soft s r)
    · refine ⟨1, by simp, ?_⟩
      simp [execRounds, hstop, List.take, List.drop]
    · rcases ih (stepRound soft s r) with ⟨k, hk, heq⟩
      refine ⟨k + 1, by simpa using hk, ?_⟩
      simp only [execRounds, hstop, if_neg, List.take, List.drop, List.foldl_cons]
      simpa using heq

theorem processedRounds_eq {α : Type} (soft : List PyClass) (rounds : List (Round α)) :
    ∃ k, k ≤ rounds.length ∧ processedRounds soft rounds = rounds.take k ∧
      execRounds soft (initBatch α) rounds =
        ((rounds.take k).foldl (stepRound soft) (initBatch α), rounds.drop k) := by
  rcases execRounds_suffix soft rounds (initBatch α) with ⟨k, hk, heq⟩
  refine ⟨k, hk, ?_, heq⟩
  rw [processedRounds, heq]
  simp [List.length_drop, Nat.sub_sub_self hk]

theorem execRounds_single {α : Type} (soft : List PyClass) (s : BatchState α)
    (r : Round α) : execRounds soft s [r] = (stepRound soft s r, []) := by
  rw [execRounds]
  split <;> rfl

theorem oksOf_cons_ok {α : Type} (v : α) (r : Round α) :
    oksOf (TaskOutcome.ok v :: r) = v :: oksOf r := by
  simp [oksOf, List.filterMap_cons]

theorem oksOf_cons_err {α : Type} (e : PyExc) (r : Round α) :
    oksOf (TaskOutcome.err e :: r) = oksOf r := by
  simp [oksOf, List.filterMap_cons]

theorem errsOf_cons_err {α : Type} (e : PyExc) (r : Round α) :
    errsOf (TaskOutcome.err e :: r) = e :: errsOf r := by
  simp [errsOf, List.filterMap_cons]

theorem oksOf_map_ok {α : Type} (l : List α) : oksOf (l.map TaskOutcome.ok) = l := by
  induction l with
  | nil => rfl
  | cons x xs ih => simp [oksOf, List.filterMap_cons] at ih ⊢; exact ih

theorem oksOf_map_err {α : Type} (es : List PyExc) :
    oksOf (es.map (TaskOutcome.err : PyExc → TaskOutcome α)) = [] := by
  induction es with
  | nil => rfl
  | cons e es ih => simpa [oksOf, List.filterMap_cons] using ih

theorem errsOf_map_err {α : Type} (es : List PyExc) :
    errsOf (es.map (TaskOutcome.err : PyExc → TaskOutcome α)) = es := by
  induction es with
  | nil => rfl
  | cons e es ih => simp [errsOf, List.filterMap_cons] at ih ⊢; exact ih

/-! ### Theorems for the claims -/

/-- C10: invoking `__execute_batch_tasks` with an empty execution list
terminates at once and raises the supplied final exception when one is
given, else `RuntimeError`. -/
theorem empty_fanout_raises {α : Type} (soft : List PyClass) (f : PyExc) :
    executeBatchTasks ([] : List (Round α)) soft (some f) = .error f ∧
    executeBatchTasks ([] : List (Round α)) soft none =
      .error (.runtimeError "Execution completed without setting a result or exception.") := by
  constructor <;> rfl

/-- C3 (amended): the shared result cell is last-writer-wins: `set_result`
overwrites the cell, so when several tasks succeed in the same completion
batch the value returned by `__execute_batch_tasks` is the most recently
recorded success, not the first; at most one result is taken (the single
`get_result` read at the end). -/
theorem result_cell_last_writer {α : Type} :
    (∀ (ev : ResultEvent α) (a b : α),
      ((ev.set_result a).set_result b).get_result = some b)
    ∧ (∀ (r : Round α) (soft : List PyClass) (finalE : Option PyExc), oksOf r ≠ [] →
        ∃ v, (oksOf r).getLast? = some v ∧ executeBatchTasks [r] soft finalE = .ok v) := by
  constructor
  · intro ev a b
    rfl
  · intro r soft finalE hne
    have hlast := List.getLast?_eq_getLast_of_ne_nil hne
    refine ⟨(oksOf r).getLast hne, hlast, ?_⟩
    have hflag : (stepRound soft (initBatch α) r).ev.flag = true := by
      rw [stepRound_ev, evFold_flag]
      simp [List.isEmpty_iff, hne]
    have hres : (stepRound soft (initBatch α) r).ev.result_ =
        some ((oksOf r).getLast hne) := by
      rw [stepRound_ev, evFold_result_last _ _ hne, hlast]
    simp only [executeBatchTasks, execRounds_single, hflag, ResultEvent.get_result, hres]
    rfl

/-- C3 witness: a round with two successes 3 then 4 returns the last
recorded success, 4. -/
theorem result_cell_last_writer_witness :
    ∃ v, (oksOf [TaskOutcome.ok (3 : ℕ), TaskOutcome.ok 4]).getLast? = some v ∧
      executeBatchTasks [[TaskOutcome.ok (3 : ℕ), TaskOutcome.ok 4]] [] none = .ok v :=
  result_cell_last_writer.2 [TaskOutcome.ok 3, TaskOutcome.ok 4] [] none (by decide)

/-- C3 counterexample: two tasks succeed in the same completion round with
values 1 then 2; the executor returns 2, the last recorded success, so the
first writer does not win and later writers are not no-ops. -/
theorem result_cell_first_writer_cex :
    executeBatchTasks [[TaskOutcome.ok (1 : ℕ), TaskOutcome.ok 2]] [] none = .ok 2 ∧
    executeBatchTasks [[TaskOutcome.ok (1 : ℕ), TaskOutcome.ok 2]] [] none ≠ .ok 1 := by
  decide

/-- C5: the first-success executor drains every completion round it does not
process (the cancelled remainder is exactly the unprocessed suffix); if some
processed task succeeded, it returns the value of a processed successful
task; if no processed task succeeded, it raises with precedence remembered
terminal failure over remembered soft failure over the supplied final
exception (else `RuntimeError`). -/
theorem first_success_contract {α : Type} (soft : List PyClass) (finalE : Option PyExc)
    (rounds : List (Round α)) :
    processedRounds soft rounds ++ (execRounds soft (initBatch α) rounds).2 = rounds
    ∧ ((∃ r ∈ processedRounds soft rounds, oksOf r ≠ []) →
        ∃ v, executeBatchTasks rounds soft finalE = .ok v ∧
          ∃ r ∈ processedRounds soft rounds, v ∈ oksOf r)
    ∧ ((∀ r ∈ processedRounds soft rounds, oksOf r = []) →
        executeBatchTasks rounds soft finalE = .error
          ((classifyErrs soft (allErrs (processedRounds soft rounds))).2.getD
            ((classifyErrs soft (allErrs (processedRounds soft rounds))).1.getD
              (finalE.getD
                (.runtimeError
                  "Execution completed without setting a result or exception."))))) := by
  rcases processedRounds_eq soft rounds with ⟨k, hk, hproc, hexec⟩
  refine ⟨?_, ?_, ?_⟩
  · rw [hproc, hexec]
    exact List.take_append_drop k rounds
  · intro hok
    rw [hproc] at hok ⊢
    have hflag : ((rounds.take k).foldl (stepRound soft) (initBatch α)).ev.flag = true :=
      foldRounds_flag_of_ok soft _ _ hok
    have hsome : (((rounds.take k).foldl (stepRound soft) (initBatch α)).ev.result_).isSome
        = true := by
      refine foldRounds_flag_some soft _ _ ?_ hflag
      intro h
      simp [initBatch, ResultEvent.init] at h
    rcases Option.isSome_iff_exists.mp hsome with ⟨v, hv⟩
    refine ⟨v, ?_, ?_⟩
    · simp only [executeBatchTasks, hexec, hflag, ResultEvent.get_result, hv]
      rfl
    · rcases foldRounds_result_mem soft _ _ v hv with h | h
      · exact h
      · simp [initBatch, ResultEvent.init] at h
  · intro hnone
    rw [hproc] at hnone ⊢
    have hfold := foldRounds_no_ok soft (rounds.take k) (initBatch α) hnone
    simp only [executeBatchTasks, hexec, hfold]
    show (if (ResultEvent.init α).flag then _ else _) = _
    simp only [ResultEvent.init, Bool.false_eq_true, if_false]
    rcases h2 : (classifyErrs soft (allErrs (rounds.take k))).2 with _ | e2 <;>
      rcases h1 : (classifyErrs soft (allErrs (rounds.take k))).1 with _ | e1 <;>
        simp only [classifyErrs] at h1 h2 <;>
          simp only [initBatch, classifyErrs, h1, h2, Option.getD_some, Option.getD_none] <;>
            cases finalE <;> simp

/-- C5 witness: a schedule with one successful task returns its value, and a
schedule whose only task fails with a soft `ValueError` raises that soft
failure itself. -/
theorem first_success_contract_witness :
    (∃ v, executeBatchTasks [[TaskOutcome.ok (7 : ℕ)]] [] none = .ok v ∧
      ∃ r ∈ processedRounds ([] : List PyClass) [[TaskOutcome.ok (7 : ℕ)]], v ∈ oksOf r)
    ∧ executeBatchTasks [[(TaskOutcome.err : PyExc → TaskOutcome ℕ) (.valueError "v")]]
        [.valueError] none = .error (.valueError "v") := by
  constructor
  · exact (first_success_contract [] none [[TaskOutcome.ok 7]]).2.1 (by decide)
  · exact (first_success_contract [.valueError] none
      [[(TaskOutcome.err : PyExc → TaskOutcome ℕ) (.valueError "v")]]).2.2 (by decide)

/-- C4 (amended): under MostUpdated, the per-sub-bracket aggregation raises
`FailedOnAllRPCs` carrying the first observed exception exactly when every
endpoint of the sub-bracket fails (a single success suffices to return);
but when every sub-bracket fails this way the view-call loop consumes these
aggregates and the caller receives the generic
`Web3InterfaceException("All of RPCs raise exception.")` instead. -/
theorem soft_error_aggregation {α β γ : Type} :
    (∀ (e0 : PyExc) (es : List PyExc) (selector : List α → β),
      gatherTasksMU ((e0 :: es).map (TaskOutcome.err : PyExc → TaskOutcome α)) selector =
        .error (.failedOnAllRPCs
          ("All of RPCs raise exception. first exception: " ++ pyStr e0)))
    ∧ (∀ (outcomes : List (TaskOutcome α)) (selector : List α → β),
        oksOf outcomes ≠ [] →
        gatherTasksMU outcomes selector = .ok (selector (oksOf outcomes)))
    ∧ (∀ subs : List (ViewSubSchedule (MCResult γ)),
        (∀ sub ∈ subs, ∃ e0 es, sub.outcomes =
          (e0 :: es).map (TaskOutcome.err : PyExc → TaskOutcome (MCResult γ))) →
        callViewFunction .mostUpdated subs =
          .error (.web3InterfaceException "All of RPCs raise exception.")) := by
  refine ⟨?_, ?_, ?_⟩
  · intro e0 es selector
    simp [gatherTasksMU, List.map_cons, oksOf_cons_err, oksOf_map_err,
      errsOf_cons_err, errsOf_map_err]
  · intro outcomes selector hne
    cases hx : oksOf outcomes with
    | nil => exact absurd hx hne
    | cons y ys => simp [gatherTasksMU, hx]
  · intro subs hsubs
    induction subs with
    | nil => rfl
    | cons sub rest ih =>
      rcases hsubs sub (List.mem_cons_self sub rest) with ⟨e0, es, hout⟩
      have hgather : gatherTasksMU sub.outcomes
          (maxBlockFinder : List (MCResult γ) → Option γ) =
          .error (.failedOnAllRPCs
            ("All of RPCs raise exception. first exception: " ++ pyStr e0)) := by
        rw [hout]
        simp [gatherTasksMU, List.map_cons, oksOf_cons_err, oksOf_map_err,
          errsOf_cons_err, errsOf_map_err]
      have hinst : isinstance (.failedOnAllRPCs
          ("All of RPCs raise exception. first exception: " ++ pyStr e0))
          [.web3InterfaceException, .timeoutError] = true := by
        simp [isinstance, PyExc.cls, PyClass.subclassOf, PyClass.isWeb3Sub]
      rw [callViewFunction]
      simp only [gatherTasks, hgather, hinst, if_pos]
      exact ih (fun s hs => hsubs s (List.mem_cons_of_mem _ hs))

/-- C4 witness: a sub-bracket with one success returns through the selector,
and a single all-failing sub-bracket surfaces as the generic
`Web3InterfaceException` at the caller. -/
theorem soft_error_aggregation_witness :
    gatherTasksMU [TaskOutcome.ok (5 : ℕ)] (fun l => l) = .ok [5]
    ∧ (callViewFunction .mostUpdated
        [⟨[(TaskOutcome.err : PyExc → TaskOutcome (MCResult ℕ))
            (.connectionError "x")], []⟩] : Except PyExc (Option ℕ)) =
      .error (.web3InterfaceException "All of RPCs raise exception.") := by
  constructor
  · exact (@soft_error_aggregation ℕ (List ℕ) ℕ).2.1 [TaskOutcome.ok 5] (fun l => l)
      (by decide)
  · refine (@soft_error_aggregation ℕ (List ℕ) ℕ).2.2 _ ?_
    intro sub hsub
    rcases List.mem_singleton.mp hsub with rfl
    exact ⟨.connectionError "x", [], rfl⟩

/-- C4 counterexample: every view endpoint raises `ConnectionError`, yet
under the default MostUpdated policy the caller receives the generic
`Web3InterfaceException` whose fixed message does not carry the first
connection error, and under FirstSuccess the caller receives the raw (last)
`ConnectionError` itself — in neither case a `FailedOnAllRPCs`. -/
theorem soft_error_cex :
    (callViewFunction .mostUpdated
      [⟨[TaskOutcome.err (.connectionError "boom1"),
         TaskOutcome.err (.connectionError "boom2")],
        [[TaskOutcome.err (.connectionError "boom1"),
          TaskOutcome.err (.connectionError "boom2")]]⟩] : Except PyExc (Option ℕ)) =
      .error (.web3InterfaceException "All of RPCs raise exception.")
    ∧ (callViewFunction .firstSuccess
      [⟨[TaskOutcome.err (.connectionError "boom1"),
         TaskOutcome.err (.connectionError "boom2")],
        [[TaskOutcome.err (.connectionError "boom1"),
          TaskOutcome.err (.connectionError "boom2")]]⟩] : Except PyExc (Option ℕ)) =
      .error (.connectionError "boom2") := by
  constructor <;> rfl

/-- C7: `getNonce` applies `max` across the endpoints of the first
sub-bracket of the targeted bracket: with every endpoint reporting a nonce,
it returns the maximum of the reports; the view bracket is targeted when it
is present (non-empty), else the transaction bracket (also when the view
bracket is an empty mapping). -/
theorem get_nonce_max (ns : List ℕ) (rest txB : List (List (TaskOutcome ℕ)))
    (h : ns ≠ []) :
    ∃ m, ns.max? = some m ∧ m ∈ ns ∧ (∀ x ∈ ns, x ≤ m)
      ∧ getNonce (some (ns.map TaskOutcome.ok :: rest)) txB = .ok (some m)
      ∧ getNonce none (ns.map TaskOutcome.ok :: rest) = .ok (some m)
      ∧ getNonce (some []) (ns.map TaskOutcome.ok :: rest) = .ok (some m) := by
  have hsome : ns.max?.isSome := by
    cases hm : ns.max? with
    | none => exact absurd (List.max?_eq_none_iff.mp hm) h
    | some m => rfl
  rcases Option.isSome_iff_exists.mp hsome with ⟨m, hm⟩
  rcases List.max?_eq_some_iff'.mp hm with ⟨hmem, hle⟩
  have hgather : gatherTasksMU (ns.map TaskOutcome.ok) List.max? = .ok (some m) := by
    cases ns with
    | nil => exact absurd rfl h
    | cons y ys =>
      simp only [gatherTasksMU, List.map_cons, oksOf_cons_ok, oksOf_map_ok]
      rw [hm]
  have hloop : getNonceLoop (ns.map TaskOutcome.ok :: rest) = .ok (some m) := by
    rw [getNonceLoop, hgather]
  refine ⟨m, hm, hmem, hle, ?_, ?_, ?_⟩
  · have : ns.map TaskOutcome.ok :: rest ≠ [] := by simp
    simpa [getNonce, List.isEmpty_iff] using hloop
  · simpa [getNonce] using hloop
  · simpa [getNonce, List.isEmpty_iff] using hloop

/-- C7 witness: three endpoints reporting nonces 7, 7, 9 yield nonce 9,
through the view bracket. -/
theorem get_nonce_max_witness :
    getNonce (some [[TaskOutcome.ok 7, TaskOutcome.ok 7, TaskOutcome.ok 9]]) [] =
      .ok (some 9) := by
  rcases get_nonce_max [7, 7, 9] [] [] (by decide) with ⟨m, hm, _, _, hview, _⟩
  have hm9 : m = 9 := by
    rw [show ([7, 7, 9] : List ℕ).max? = some 9 by decide] at hm
    exact (Option.some.inj hm).symm
  subst hm9
  exact hview

theorem maxLoop_spec {γ : Type} (l : List (MCResult γ)) :
    ∀ (i best : ℕ) (mb : ℤ),
    (maxLoop l i mb best = best ∧ ∀ k, ∀ hk : k < l.length, (l.get ⟨k, hk⟩).block ≤ mb)
    ∨ (∃ j, ∃ hj : j < l.length, maxLoop l i mb best = i + j
        ∧ mb < (l.get ⟨j, hj⟩).block
        ∧ (∀ k, ∀ hk : k < l.length, (l.get ⟨k, hk⟩).block ≤ (l.get ⟨j, hj⟩).block)
        ∧ (∀ k, ∀ hk : k < j,
            (l.get ⟨k, Nat.lt_trans hk hj⟩).block < (l.get ⟨j, hj⟩).block)) := by
  induction l with
  | nil =>
    intro i best mb
    left
    exact ⟨rfl, fun k hk => absurd hk (Nat.not_lt_zero k)⟩
  | cons r rest ih =>
    intro i best mb
    by_cases hgt : r.block > mb
    · rcases ih (i + 1) i r.block with ⟨hout, hle⟩ | ⟨j, hj, hout, hmb, hmax, hstrict⟩
      · right
        refine ⟨0, Nat.succ_pos _, ?_, hgt, ?_, fun k hk => absurd hk (Nat.not_lt_zero k)⟩
        · show maxLoop (r :: rest) i mb best = i + 0
          rw [maxLoop, if_pos hgt, hout]
          omega
        · intro k hk
          cases k with
          | zero => exact le_refl _
          | succ k' =>
            exact hle k' (Nat.lt_of_succ_lt_succ hk)
      · right
        refine ⟨j + 1, Nat.succ_lt_succ hj, ?_, ?_, ?_, ?_⟩
        · show maxLoop (r :: rest) i mb best = i + (j + 1)
          rw [maxLoop, if_pos hgt, hout]
          omega
        · exact lt_trans hgt hmb
        · intro k hk
          cases k with
          | zero => exact le_of_lt hmb
          | succ k' => exact hmax k' (Nat.lt_of_succ_lt_succ hk)
        · intro k hk
          cases k with
          | zero => exact hmb
          | succ k' => exact hstrict k' (Nat.lt_of_succ_lt_succ hk)
    · have hle0 : r.block ≤ mb := le_of_not_lt hgt
      rcases ih (i + 1) best mb with ⟨hout, hle⟩ | ⟨j, hj, hout, hmb, hmax, hstrict⟩
      · left
        constructor
        · rw [maxLoop, if_neg hgt, hout]
        · intro k hk
          cases k with
          | zero => exact hle0
          | succ k' => exact hle k' (Nat.lt_of_succ_lt_succ hk)
      · right
        refine ⟨j + 1, Nat.succ_lt_succ hj, ?_, hmb, ?_, ?_⟩
        · show maxLoop (r :: rest) i mb best = i + (j + 1)
          rw [maxLoop, if_neg hgt, hout]
          omega
        · intro k hk
          cases k with
          | zero => exact le_of_lt (lt_of_le_of_lt hle0 hmb)
          | succ k' => exact hmax k' (Nat.lt_of_succ_lt_succ hk)
        · intro k hk
          cases k with
          | zero => exact lt_of_le_of_lt hle0 hmb
          | succ k' => exact hstrict k' (Nat.lt_of_succ_lt_succ hk)

/-- C6: a MostUpdated read whose first sub-bracket endpoints all return
tagged tuples `(block_i, _, [value_i])` yields the value of the endpoint
with the highest reported block, ties broken by the smallest endpoint
index. -/
theorem most_updated_argmax {γ : Type} (rs : List (MCResult γ))
    (rest : List (ViewSubSchedule (MCResult γ))) (rounds : List (Round (MCResult γ)))
    (hne : rs ≠ []) (hvals : ∀ r ∈ rs, ∃ v, r.vals = [v]) :
    ∃ j, ∃ hj : j < rs.length, ∃ v,
      (rs.get ⟨j, hj⟩).vals = [v]
      ∧ (∀ k, ∀ hk : k < rs.length, (rs.get ⟨k, hk⟩).block ≤ (rs.get ⟨j, hj⟩).block)
      ∧ (∀ k, ∀ hk : k < j, (rs.get ⟨k, Nat.lt_trans hk hj⟩).block < (rs.get ⟨j, hj⟩).block)
      ∧ callViewFunction .mostUpdated (⟨rs.map TaskOutcome.ok, rounds⟩ :: rest) =
          .ok (some v) := by
  obtain ⟨r0, rtl, rfl⟩ : ∃ r0 rtl, rs = r0 :: rtl := by
    cases rs with
    | nil => exact absurd rfl hne
    | cons a b => exact ⟨a, b, rfl⟩
  have hfinder : ∀ j, ∀ hj : j < (r0 :: rtl).length,
      maxLoop (r0 :: rtl) 0 r0.block 0 = j →
      maxBlockFinder (r0 :: rtl) = ((r0 :: rtl).get ⟨j, hj⟩).vals.head? := by
    intro j hj hloop
    rw [maxBlockFinder, hloop, List.get?_eq_get hj]
    rfl
  have hview : ∀ v : γ, maxBlockFinder (r0 :: rtl) = some v →
      callViewFunction .mostUpdated (⟨(r0 :: rtl).map TaskOutcome.ok, rounds⟩ :: rest) =
        .ok (some v) := by
    intro v hv
    rw [callViewFunction]
    have hg : gatherTasksMU ((r0 :: rtl).map TaskOutcome.ok) maxBlockFinder =
        .ok (some v) := by
      simp only [gatherTasksMU, List.map_cons, oksOf_cons_ok, oksOf_map_ok]
      rw [hv]
    simp only [gatherTasks, hg]
  rcases maxLoop_spec (r0 :: rtl) 0 0 r0.block with ⟨hout, hle⟩ |
      ⟨j, hj, hout, _, hmax, hstrict⟩
  · rcases hvals r0 (List.mem_cons_self r0 rtl) with ⟨v, hv⟩
    refine ⟨0, Nat.succ_pos _, v, hv, ?_, fun k hk => absurd hk (Nat.not_lt_zero k), ?_⟩
    · intro k hk
      exact hle k hk
    · refine hview v ?_
      rw [hfinder 0 (Nat.succ_pos _) hout]
      show r0.vals.head? = some v
      rw [hv]
      rfl
  · have hjmem : (r0 :: rtl).get ⟨j, hj⟩ ∈ r0 :: rtl := List.get_mem _ j hj
    rcases hvals _ hjmem with ⟨v, hv⟩
    refine ⟨j, hj, v, hv, hmax, hstrict, ?_⟩
    refine hview v ?_
    rw [hfinder j hj (by simpa using hout)]
    rw [hv]
    rfl

/-- C6 witness: two endpoints report blocks 100 and 101 with values 170 and
187; the read returns 187, the value at the highest block. -/
theorem most_updated_argmax_witness :
    (callViewFunction .mostUpdated
      [⟨[TaskOutcome.ok ⟨100, 0, [170]⟩, TaskOutcome.ok ⟨101, 0, [187]⟩], []⟩]
      : Except PyExc (Option ℕ)) = .ok (some 187) := by
  have hvals : ∀ r ∈ [(⟨100, 0, [170]⟩ : MCResult ℕ), ⟨101, 0, [187]⟩],
      ∃ v, r.vals = [v] := by
    intro r hr
    rcases List.mem_cons.mp hr with rfl | hr'
    · exact ⟨170, rfl⟩
    · rcases List.mem_singleton.mp hr' with rfl
      exact ⟨187, rfl⟩
  rcases most_updated_argmax [⟨100, 0, [170]⟩, ⟨101, 0, [187]⟩] [] []
      (by simp) hvals with ⟨j, hj, v, hv, hmax, _, hcall⟩
  have hlen : j = 0 ∨ j = 1 := by
    have := hj
    simp only [List.length_cons, List.length_nil] at this
    omega
  rcases hlen with rfl | rfl
  · exact absurd (hmax 1 (by decide)) (by decide : ¬ ((101 : ℤ) ≤ 100))
  · have hv2 : [(187 : ℕ)] = [v] := hv.symm ▸ rfl
    have hv187 : v = 187 := (List.cons.inj hv2).1.symm
    subst hv187
    exact hcall

theorem rpcGasLoop_found (bound : ℚ) (reports : List RpcGasFetch) :
    ∀ (cur : Option ℚ) (w : ℚ), rpcGasLoop bound reports cur = .ok (some w, true) →
      w / 10 ^ 9 ≤ bound ∧ RpcGasFetch.ok w ∈ reports := by
  induction reports with
  | nil =>
    intro cur w h
    rw [rpcGasLoop] at h
    simp at h
  | cons r rest ih =>
    intro cur w h
    cases r with
    | ok x =>
      rw [rpcGasLoop] at h
      by_cases hx : x / 10 ^ 9 ≤ bound
      · rw [if_pos hx] at h
        simp only [Except.ok.injEq, Prod.mk.injEq, Option.some.injEq] at h
        rcases h with ⟨rfl, _⟩
        exact ⟨hx, List.mem_cons_self _ _⟩
      · rw [if_neg hx] at h
        rcases ih _ _ h with ⟨h1, h2⟩
        exact ⟨h1, List.mem_cons_of_mem _ h2⟩
    | softFail =>
      rw [rpcGasLoop] at h
      rcases ih _ _ h with ⟨h1, h2⟩
      exact ⟨h1, List.mem_cons_of_mem _ h2⟩
    | hardFail m =>
      rw [rpcGasLoop] at h
      cases h

theorem getGasFromApi_fee (env : GasEnv) (p : TxPriority) (bound : ℚ) (gp : GasParams)
    (h : getGasFromApi env p bound = .ok gp) :
    ∃ q : ℚ, q ≤ bound ∧ selectedFee gp = q * 10 ^ 9 := by
  cases hq : env.apiQuote p with
  | none =>
    simp only [getGasFromApi, hq] at h
    cases h
  | some pr =>
    obtain ⟨maxFee, maxPrio⟩ := pr
    simp only [getGasFromApi, hq] at h
    by_cases hb : maxFee > bound
    · rw [if_pos hb] at h
      cases h
    · rw [if_neg hb] at h
      injection h with h2
      exact ⟨maxFee, le_of_not_lt hb, by rw [← h2]; rfl⟩

theorem getGasFromRpc_fee (env : GasEnv) (p : TxPriority) (bound : ℚ) (gp : GasParams)
    (hr : ∀ w : ℚ, RpcGasFetch.ok w ∈ env.rpcReports → 0 ≤ w)
    (h : getGasFromRpc env p bound = .ok gp) :
    ∃ w : ℚ, 0 ≤ w ∧ w ≤ bound * 10 ^ 9 ∧ gp = .legacy (w * env.mult p) := by
  cases hl : rpcGasLoop bound env.rpcReports none with
  | error e => simp only [getGasFromRpc, hl] at h; cases h
  | ok pr =>
    obtain ⟨cur, found⟩ := pr
    cases cur with
    | none => simp only [getGasFromRpc, hl] at h; cases h
    | some w =>
      cases found with
      | false => simp only [getGasFromRpc, hl] at h; simp at h
      | true =>
        rcases rpcGasLoop_found bound env.rpcReports none w hl with ⟨hb, hmem⟩
        have h9 : (0 : ℚ) < 10 ^ 9 := by norm_num
        have hwb : w ≤ bound * 10 ^ 9 := (div_le_iff₀ h9).mp hb
        simp only [getGasFromRpc, hl, if_pos] at h
        injection h with h2
        exact ⟨w, hr w hmem, hwb, h2.symm⟩

theorem getFixedValue_fee (env : GasEnv) (p : TxPriority) (bound : ℚ) (gp : GasParams)
    (hf : 0 ≤ env.fixedValueGas)
    (ht : ∀ g : ℚ, env.chainIdToGas env.chainId = some g → 0 ≤ g)
    (h : getFixedValue env p bound = .ok gp) :
    ∃ g : ℚ, 0 ≤ g ∧ g ≤ bound ∧ gp = .legacy (g * env.mult p * 10 ^ 9) := by
  cases hc : env.chainIdToGas env.chainId with
  | none =>
    simp only [getFixedValue, hc] at h
    by_cases hb : env.fixedValueGas > bound
    · rw [if_pos hb] at h; cases h
    · rw [if_neg hb] at h
      injection h with h2
      exact ⟨env.fixedValueGas, hf, le_of_not_lt hb, h2.symm⟩
  | some g =>
    simp only [getFixedValue, hc] at h
    by_cases hg : g = 0
    · rw [if_pos hg] at h
      by_cases hb : env.fixedValueGas > bound
      · rw [if_pos hb] at h; cases h
      · rw [if_neg hb] at h
        injection h with h2
        exact ⟨env.fixedValueGas, hf, le_of_not_lt hb, h2.symm⟩
    · rw [if_neg hg] at h
      by_cases hb : g > bound
      · rw [if_pos hb] at h; cases h
      · rw [if_neg hb] at h
        injection h with h2
        exact ⟨g, ht g hc, le_of_not_lt hb, h2.symm⟩

theorem runMethod_fee (m : GasEstimationMethod) (env : GasEnv) (p : TxPriority)
    (bound : ℚ) (gp : GasParams) (hb : 0 ≤ bound) (hm : 0 ≤ env.mult p)
    (hr : ∀ w : ℚ, RpcGasFetch.ok w ∈ env.rpcReports → 0 ≤ w)
    (hf : 0 ≤ env.fixedValueGas)
    (ht : ∀ g : ℚ, env.chainIdToGas env.chainId = some g → 0 ≤ g)
    (h : runMethod m env p bound = .ok gp) :
    selectedFee gp ≤ bound * 10 ^ 9 * max 1 (env.mult p) := by
  have hM1 : (1 : ℚ) ≤ max 1 (env.mult p) := le_max_left _ _
  have hM0 : (0 : ℚ) ≤ max 1 (env.mult p) := le_trans zero_le_one hM1
  have hmM : env.mult p ≤ max 1 (env.mult p) := le_max_right _ _
  have hb9 : (0 : ℚ) ≤ bound * 10 ^ 9 := by positivity
  cases m with
  | gasApiProvider =>
    rcases getGasFromApi_fee env p bound gp h with ⟨q, hq, hfee⟩
    rw [hfee]
    calc q * 10 ^ 9 ≤ bound * 10 ^ 9 :=
          mul_le_mul_of_nonneg_right hq (by norm_num)
      _ ≤ bound * 10 ^ 9 * max 1 (env.mult p) := le_mul_of_one_le_right hb9 hM1
  | rpc =>
    rcases getGasFromRpc_fee env p bound gp hr h with ⟨w, hw0, hwb, rfl⟩
    show w * env.mult p ≤ _
    have h1 : w * env.mult p ≤ w * max 1 (env.mult p) :=
      mul_le_mul_of_nonneg_left hmM hw0
    have h2 : w * max 1 (env.mult p) ≤ bound * 10 ^ 9 * max 1 (env.mult p) :=
      mul_le_mul_of_nonneg_right hwb hM0
    linarith
  | fixed =>
    rcases getFixedValue_fee env p bound gp hf ht h with ⟨g, hg0, hgb, rfl⟩
    show g * env.mult p * 10 ^ 9 ≤ _
    have h1 : g * env.mult p ≤ bound * max 1 (env.mult p) :=
      mul_le_mul hgb hmM hm hb
    nlinarith [h1]
  | custom => cases h

theorem gasCascade_fee (env : GasEnv) (p : TxPriority) (bound : ℚ)
    (hb : 0 ≤ bound) (hm : 0 ≤ env.mult p)
    (hr : ∀ w : ℚ, RpcGasFetch.ok w ∈ env.rpcReports → 0 ≤ w)
    (hf : 0 ≤ env.fixedValueGas)
    (ht : ∀ g : ℚ, env.chainIdToGas env.chainId = some g → 0 ≤ g) :
    ∀ (ms : List GasEstimationMethod) (gp : GasParams),
      gasCascade env p bound ms = .ok gp →
      selectedFee gp ≤ bound * 10 ^ 9 * max 1 (env.mult p) := by
  intro ms
  induction ms with
  | nil => intro gp h; cases h
  | cons m rest ih =>
    intro gp h
    cases hm2 : runMethod m env p bound with
    | ok g =>
      simp only [gasCascade, hm2] at h
      injection h with h2
      subst h2
      exact runMethod_fee m env p bound _ hb hm hr hf ht hm2
    | error e =>
      simp only [gasCascade, hm2] at h
      by_cases hc : isinstance e [.failedToGetGasPrice, .outOfRangeTransactionFee] = true
      · rw [if_pos hc] at h
        exact ih gp h
      · rw [if_neg hc] at h
        cases h

/-- C2 (amended): every successful gas estimation originates from a fee that
passed the ceiling check before the priority multiplier was applied, so the
selected fee in wei is at most ceiling x 10^9 x max(1, multiplier); in
particular with unit multipliers the selected fee measured in GWei is at
most the ceiling.  The returned wei-valued `gasPrice` itself can exceed the
numeric ceiling. -/
theorem gas_fee_ceiling (env : GasEnv) (bound : ℚ) (p : TxPriority)
    (m : Option GasEstimationMethod) (gp : GasParams)
    (hb : 0 ≤ bound) (hm : 0 ≤ env.mult p)
    (hr : ∀ w : ℚ, RpcGasFetch.ok w ∈ env.rpcReports → 0 ≤ w)
    (hf : 0 ≤ env.fixedValueGas)
    (ht : ∀ g : ℚ, env.chainIdToGas env.chainId = some g → 0 ≤ g)
    (h : getGasPrice env bound p m = .ok gp) :
    selectedFee gp ≤ bound * 10 ^ 9 * max 1 (env.mult p)
    ∧ (env.mult p = 1 → selectedFee gp / 10 ^ 9 ≤ bound) := by
  have main : selectedFee gp ≤ bound * 10 ^ 9 * max 1 (env.mult p) := by
    cases m with
    | some m' =>
      simp only [getGasPrice] at h
      exact runMethod_fee m' env p bound gp hb hm hr hf ht h
    | none =>
      cases hd : env.defaultMethod with
      | some d =>
        simp only [getGasPrice, hd] at h
        exact runMethod_fee d env p bound gp hb hm hr hf ht h
      | none =>
        simp only [getGasPrice, hd] at h
        by_cases hdev : (env.devEnv || decide (env.chainId ∈ env.gasFromRpcChainIds)) = true
        · rw [if_pos hdev] at h
          exact runMethod_fee .rpc env p bound gp hb hm hr hf ht h
        · rw [if_neg hdev] at h
          exact gasCascade_fee env p bound hb hm hr hf ht _ gp h
  refine ⟨main, ?_⟩
  intro h1
  rw [h1] at main
  have hsel : selectedFee gp ≤ bound * 10 ^ 9 := by
    simpa using main
  have h9 : (0 : ℚ) < 10 ^ 9 := by norm_num
  exact (div_le_iff h9).mpr hsel

/-- C2 witness: a fixed-table estimation of 7 GWei under ceiling 26000 with
unit multiplier returns 7 * 10^9 wei, within the GWei ceiling. -/
theorem gas_fee_ceiling_witness :
    getGasPrice ⟨1, none, fun _ => 1, fun _ => none, [], false, [], fun _ => none, 7⟩
      26000 .low (some .fixed) = .ok (.legacy (7 * 10 ^ 9))
    ∧ selectedFee (.legacy (7 * 10 ^ 9)) ≤ 26000 * 10 ^ 9 * max 1 1
    ∧ selectedFee (.legacy (7 * 10 ^ 9)) / 10 ^ 9 ≤ 26000 := by
  have heval : getGasPrice
      ⟨1, none, fun _ => 1, fun _ => none, [], false, [], fun _ => none, 7⟩
      26000 .low (some .fixed) = .ok (.legacy (7 * 10 ^ 9)) := by
    simp only [getGasPrice, runMethod, getFixedValue]
    norm_num
  have h := gas_fee_ceiling
    ⟨1, none, fun _ => 1, fun _ => none, [], false, [], fun _ => none, 7⟩
    26000 .low (some .fixed) (.legacy (7 * 10 ^ 9)) (by norm_num) (by norm_num)
    (fun w hw => absurd hw (List.not_mem_nil _)) (by norm_num)
    (fun g hg => by cases hg) heval
  exact ⟨heval, h.1, h.2 rfl⟩

/-- C2 counterexample: one endpoint reports 90 GWei under ceiling 100 with
priority multiplier 2; the returned `gasPrice` is 180 GWei in wei, exceeding
the ceiling both read in wei and read in GWei. -/
theorem gas_fee_ceiling_cex :
    getGasPrice ⟨1, none, fun _ => 2, fun _ => none, [.ok (90 * 10 ^ 9)], false, [],
        fun _ => none, 0⟩ 100 .low (some .rpc) = .ok (.legacy (180 * 10 ^ 9))
    ∧ ¬ selectedFee (.legacy (180 * 10 ^ 9)) ≤ 100
    ∧ ¬ selectedFee (.legacy (180 * 10 ^ 9)) / 10 ^ 9 ≤ 100 := by
  have hloop : rpcGasLoop 100 [.ok (90 * 10 ^ 9)] none = .ok (some (90 * 10 ^ 9), true) := by
    rw [rpcGasLoop]
    norm_num
  refine ⟨?_, by norm_num [selectedFee], by norm_num [selectedFee]⟩
  simp only [getGasPrice, runMethod, getGasFromRpc, hloop, if_pos]
  norm_num

/-- C8 (amended): when the caller names a method, or the estimator was
constructed with a default method and the caller names none, that method
alone runs and its failure propagates; only with neither does the dev-env
flag or the RPC-only chain-id set force the RPC method; otherwise the
cascade Gas-API, RPC, Fixed, Custom runs, stopping at the first method that
returns, skipping over `FailedToGetGasPrice`/`OutOfRangeTransactionFee`
failures, surfacing any other failure at once, and surfacing Custom's
`TypeError` (its body calls the non-callable `NotImplemented`) after the
first three methods all fail softly. -/
theorem gas_method_selection (env : GasEnv) (bound : ℚ) (p : TxPriority) :
    (∀ m : GasEstimationMethod, getGasPrice env bound p (some m) = runMethod m env p bound)
    ∧ (∀ d, env.defaultMethod = some d →
        getGasPrice env bound p none = runMethod d env p bound)
    ∧ (env.defaultMethod = none →
        (env.devEnv = true ∨ env.chainId ∈ env.gasFromRpcChainIds) →
        getGasPrice env bound p none = getGasFromRpc env p bound)
    ∧ (env.defaultMethod = none → env.devEnv = false →
        env.chainId ∉ env.gasFromRpcChainIds →
        ((∀ gp, getGasFromApi env p bound = .ok gp →
            getGasPrice env bound p none = .ok gp)
         ∧ (∀ e1 gp, getGasFromApi env p bound = .error e1 →
             isinstance e1 [.failedToGetGasPrice, .outOfRangeTransactionFee] = true →
             getGasFromRpc env p bound = .ok gp →
             getGasPrice env bound p none = .ok gp)
         ∧ (∀ e1 e2 gp, getGasFromApi env p bound = .error e1 →
             isinstance e1 [.failedToGetGasPrice, .outOfRangeTransactionFee] = true →
             getGasFromRpc env p bound = .error e2 →
             isinstance e2 [.failedToGetGasPrice, .outOfRangeTransactionFee] = true →
             getFixedValue env p bound = .ok gp →
             getGasPrice env bound p none = .ok gp)
         ∧ (∀ e1 e2 e3, getGasFromApi env p bound = .error e1 →
             isinstance e1 [.failedToGetGasPrice, .outOfRangeTransactionFee] = true →
             getGasFromRpc env p bound = .error e2 →
             isinstance e2 [.failedToGetGasPrice, .outOfRangeTransactionFee] = true →
             getFixedValue env p bound = .error e3 →
             isinstance e3 [.failedToGetGasPrice, .outOfRangeTransactionFee] = true →
             getGasPrice env bound p none =
               .error (.typeError "NotImplementedType object is not callable"))
         ∧ (∀ e1 e2, getGasFromApi env p bound = .error e1 →
             isinstance e1 [.failedToGetGasPrice, .outOfRangeTransactionFee] = true →
             getGasFromRpc env p bound = .error e2 →
             isinstance e2 [.failedToGetGasPrice, .outOfRangeTransactionFee] = false →
             getGasPrice env bound p none = .error e2))) := by
  refine ⟨?_, ?_, ?_, ?_⟩
  · intro m
    rfl
  · intro d hd
    simp only [getGasPrice, hd]
  · intro hd hflag
    have hcond : (env.devEnv || decide (env.chainId ∈ env.gasFromRpcChainIds)) = true := by
      rcases hflag with h1 | h1 <;> simp [h1]
    simp only [getGasPrice, hd, if_pos hcond]
  · intro hd hdev hmem
    have hcond : ¬ ((env.devEnv || decide (env.chainId ∈ env.gasFromRpcChainIds)) = true) := by
      simp [hdev, hmem]
    refine ⟨?_, ?_, ?_, ?_, ?_⟩
    · intro gp hapi
      simp only [getGasPrice, hd, if_neg hcond, methodSortedPriority, gasCascade,
        runMethod, hapi]
    · intro e1 gp hapi hs1 hrpc
      simp only [getGasPrice, hd, if_neg hcond, methodSortedPriority, gasCascade,
        runMethod, hapi, if_pos hs1, hrpc]
    · intro e1 e2 gp hapi hs1 hrpc hs2 hfix
      simp only [getGasPrice, hd, if_neg hcond, methodSortedPriority, gasCascade,
        runMethod, hapi, if_pos hs1, hrpc, if_pos hs2, hfix]
    · intro e1 e2 e3 hapi hs1 hrpc hs2 hfix hs3
      simp only [getGasPrice, hd, if_neg hcond, methodSortedPriority, gasCascade,
        runMethod, hapi, if_pos hs1, hrpc, if_pos hs2, hfix, if_pos hs3,
        customGasEstimation]
      rw [if_neg]
      intro hbad
      exact absurd hbad (by decide)
    · intro e1 e2 hapi hs1 hrpc hs2
      simp only [getGasPrice, hd, if_neg hcond, methodSortedPriority, gasCascade,
        runMethod, hapi, if_pos hs1, hrpc]
      rw [if_neg]
      simp [hs2]

/-- C8 witness: with a configured default method Fixed and no caller method
that default runs; with no default and the dev-env flag set the RPC method
runs. -/
theorem gas_method_selection_witness :
    getGasPrice ⟨1, some .fixed, fun _ => 1, fun _ => none, [.ok (5 * 10 ^ 9)], true, [],
        fun _ => some 7, 9⟩ 26000 .low none =
      runMethod .fixed ⟨1, some .fixed, fun _ => 1, fun _ => none, [.ok (5 * 10 ^ 9)],
        true, [], fun _ => some 7, 9⟩ .low 26000
    ∧ getGasPrice ⟨1, none, fun _ => 1, fun _ => none, [.ok (5 * 10 ^ 9)], true, [],
        fun _ => some 7, 9⟩ 26000 .low none =
      getGasFromRpc ⟨1, none, fun _ => 1, fun _ => none, [.ok (5 * 10 ^ 9)], true, [],
        fun _ => some 7, 9⟩ .low 26000 := by
  constructor
  · exact (gas_method_selection ⟨1, some .fixed, fun _ => 1, fun _ => none,
      [.ok (5 * 10 ^ 9)], true, [], fun _ => some 7, 9⟩ 26000 .low).2.1 .fixed rfl
  · exact (gas_method_selection ⟨1, none, fun _ => 1, fun _ => none,
      [.ok (5 * 10 ^ 9)], true, [], fun _ => some 7, 9⟩ 26000 .low).2.2.1 rfl
      (Or.inl rfl)

/-- C8 counterexample: the estimator has default method Fixed, the dev-env
flag is set and the caller names no method; the claim says the RPC method is
used (it would price 5 GWei), but the code runs the default Fixed method and
prices 7 GWei. -/
theorem gas_method_selection_cex :
    getGasPrice ⟨1, some .fixed, fun _ => 1, fun _ => none, [.ok (5 * 10 ^ 9)], true, [],
        fun _ => some 7, 9⟩ 26000 .low none = .ok (.legacy (7 * 10 ^ 9))
    ∧ getGasFromRpc ⟨1, some .fixed, fun _ => 1, fun _ => none, [.ok (5 * 10 ^ 9)], true,
        [], fun _ => some 7, 9⟩ .low 26000 = .ok (.legacy (5 * 10 ^ 9))
    ∧ (Except.ok (GasParams.legacy (7 * 10 ^ 9)) : Except PyExc GasParams) ≠
        .ok (.legacy (5 * 10 ^ 9)) := by
  refine ⟨?_, ?_, by norm_num⟩
  · simp only [getGasPrice, runMethod, getFixedValue]
    norm_num
  · have hloop : rpcGasLoop 26000 [.ok (5 * 10 ^ 9)] none =
        .ok (some (5 * 10 ^ 9), true) := by
      rw [rpcGasLoop]
      norm_num
    simp only [getGasFromRpc, hloop, if_pos]
    norm_num

theorem createWeb3_ok_iff {υ : Type} (maxN : ℕ) (brackets : List (List (υ × Bool))) :
    (∃ ls, createWeb3FromRpc maxN brackets = .ok ls) ↔
      ∀ b ∈ brackets, bracketOffense maxN b = none := by
  induction brackets with
  | nil => simp [createWeb3FromRpc]
  | cons b rest ih =>
    constructor
    · rintro ⟨ls, hls⟩ b' hb'
      by_cases h1 : maxN < b.length
      · rw [createWeb3FromRpc, if_pos h1] at hls
        cases hls
      · rw [createWeb3FromRpc, if_neg h1] at hls
        by_cases h2 : ((b.filter (fun u => u.2)).map (fun u => u.1)).isEmpty
        · rw [if_pos h2] at hls
          cases hls
        · rw [if_neg h2] at hls
          cases hrest : createWeb3FromRpc maxN rest with
          | error e => rw [hrest] at hls; cases hls
          | ok tl =>
            rcases List.mem_cons.mp hb' with rfl | hmem
            · rw [bracketOffense, if_neg h1, if_neg h2]
            · exact ih.mp ⟨tl, hrest⟩ b' hmem
    · intro hall
      have hb : bracketOffense maxN b = none := hall b (List.mem_cons_self b rest)
      rw [bracketOffense] at hb
      by_cases h1 : maxN < b.length
      · rw [if_pos h1] at hb; cases hb
      · rw [if_neg h1] at hb
        by_cases h2 : ((b.filter (fun u => u.2)).map (fun u => u.1)).isEmpty
        · rw [if_pos h2] at hb; cases hb
        · rcases ih.mpr (fun x hx => hall x (List.mem_cons_of_mem _ hx)) with ⟨tl, htl⟩
          refine ⟨(b.filter (fun u => u.2)).map (fun u => u.1) :: tl, ?_⟩
          rw [createWeb3FromRpc, if_neg h1, if_neg h2, htl]
          rfl

theorem createWeb3_error_cases {υ : Type} (maxN : ℕ) :
    ∀ (brackets : List (List (υ × Bool))) (e : PyExc),
      createWeb3FromRpc maxN brackets = .error e →
      e = .maximumRPCInEachBracketReached ∨ e = .atLastProvideOneValidRPCInEachBracket := by
  intro brackets
  induction brackets with
  | nil => intro e h; cases h
  | cons b rest ih =>
    intro e h
    by_cases h1 : maxN < b.length
    · rw [createWeb3FromRpc, if_pos h1] at h
      injection h with h2
      exact Or.inl h2.symm
    · rw [createWeb3FromRpc, if_neg h1] at h
      by_cases h2 : ((b.filter (fun u => u.2)).map (fun u => u.1)).isEmpty
      · rw [if_pos h2] at h
        injection h with h3
        exact Or.inr h3.symm
      · rw [if_neg h2] at h
        cases hrest : createWeb3FromRpc maxN rest with
        | error e' =>
          rw [hrest] at h
          injection h with h3
          exact h3 ▸ ih e' hrest
        | ok tl => rw [hrest] at h; cases h

theorem createWeb3_first_offense {υ : Type} (maxN : ℕ) :
    ∀ (pre : List (List (υ × Bool))) (b : List (υ × Bool))
      (post : List (List (υ × Bool))) (e : PyExc),
      (∀ x ∈ pre, bracketOffense maxN x = none) → bracketOffense maxN b = some e →
      createWeb3FromRpc maxN (pre ++ b :: post) = .error e := by
  intro pre
  induction pre with
  | nil =>
    intro b post e hpre hb
    rw [bracketOffense] at hb
    by_cases h1 : maxN < b.length
    · rw [if_pos h1] at hb
      injection hb with h2
      rw [List.nil_append, createWeb3FromRpc, if_pos h1, h2]
    · rw [if_neg h1] at hb
      by_cases h2 : ((b.filter (fun u => u.2)).map (fun u => u.1)).isEmpty
      · rw [if_pos h2] at hb
        injection hb with h3
        rw [List.nil_append, createWeb3FromRpc, if_neg h1, if_pos h2, h3]
      · rw [if_neg h2] at hb
        cases hb
  | cons x pre' ih =>
    intro b post e hpre hb
    have hx : bracketOffense maxN x = none := hpre x (List.mem_cons_self x pre')
    rw [bracketOffense] at hx
    by_cases h1 : maxN < x.length
    · rw [if_pos h1] at hx; cases hx
    · rw [if_neg h1] at hx
      by_cases h2 : ((x.filter (fun u => u.2)).map (fun u => u.1)).isEmpty
      · rw [if_pos h2] at hx; cases hx
      · have hrec := ih b post e (fun y hy => hpre y (List.mem_cons_of_mem _ hy)) hb
        show createWeb3FromRpc maxN (x :: (pre' ++ b :: post)) = .error e
        rw [createWeb3FromRpc, if_neg h1, if_neg h2, hrec]
        rfl

/-- C9: a bracket whose URL list exceeds `MaxRPCInEachBracket`, or a bracket
left with zero live endpoints after the reachability probe, makes
`create_web3_from_rpc` raise instead of returning the provider mapping, so
setup fails and no facade is built; the exception is
`MaximumRPCInEachBracketReached` or `AtLastProvideOneValidRPCInEachBracket`,
matching the first offending bracket's condition (the oversize check runs
before probing). -/
theorem setup_bracket_validation {υ : Type} (maxN : ℕ)
    (brackets pre post : List (List (υ × Bool))) (b : List (υ × Bool)) :
    (b ∈ brackets → bracketOffense maxN b ≠ none →
      ∃ e, createWeb3FromRpc maxN brackets = .error e ∧
        (e = .maximumRPCInEachBracketReached ∨
         e = .atLastProvideOneValidRPCInEachBracket))
    ∧ (brackets = pre ++ b :: post → (∀ x ∈ pre, bracketOffense maxN x = none) →
        (maxN < b.length →
          createWeb3FromRpc maxN brackets = .error .maximumRPCInEachBracketReached)
        ∧ (¬ maxN < b.length →
            ((b.filter (fun u => u.2)).map (fun u => u.1)).isEmpty →
            createWeb3FromRpc maxN brackets =
              .error .atLastProvideOneValidRPCInEachBracket)) := by
  constructor
  · intro hmem hoff
    cases hres : createWeb3FromRpc maxN brackets with
    | ok ls => exact absurd ((createWeb3_ok_iff maxN brackets).mp ⟨ls, hres⟩ b hmem) hoff
    | error e => exact ⟨e, rfl, createWeb3_error_cases maxN brackets e hres⟩
  · intro hsplit hpre
    constructor
    · intro h1
      rw [hsplit]
      refine createWeb3_first_offense maxN pre b post _ hpre ?_
      rw [bracketOffense, if_pos h1]
    · intro h1 h2
      rw [hsplit]
      refine createWeb3_first_offense maxN pre b post _ hpre ?_
      rw [bracketOffense, if_neg h1, if_pos h2]

/-- C9 witness: a two-URL bracket under limit 1 fails setup with
`MaximumRPCInEachBracketReached`; a bracket whose only URL is unreachable
fails setup with `AtLastProvideOneValidRPCInEachBracket`. -/
theorem setup_bracket_validation_witness :
    createWeb3FromRpc 1 [[((10 : ℕ), true), (11, false)]] =
      .error .maximumRPCInEachBracketReached
    ∧ createWeb3FromRpc 3 [[((10 : ℕ), true), (11, false)], [(12, false)]] =
      .error .atLastProvideOneValidRPCInEachBracket := by
  constructor
  · exact ((setup_bracket_validation 1 [[((10 : ℕ), true), (11, false)]] []
      [] [((10 : ℕ), true), (11, false)]).2 rfl (by intro x hx; cases hx)).1
      (by decide)
  · exact ((setup_bracket_validation 3 [[((10 : ℕ), true), (11, false)], [(12, false)]]
      [[((10 : ℕ), true), (11, false)]] [] [((12 : ℕ), false)]).2 rfl
      (by intro x hx; rcases List.mem_singleton.mp hx with rfl; decide)).2
      (by decide) (by decide)

theorem callTxLoop_spec {τ σ : Type} (tp : TxParams) (wait : ℕ) :
    ∀ schedules : List (TxSchedule τ σ),
      (∀ q ∈ (callTxLoop tp wait schedules).2, q = tp)
      ∧ (countEscal wait schedules = schedules.length →
          (callTxLoop tp wait schedules).2.length = schedules.length ∧
          (callTxLoop tp wait schedules).1 =
            .error (.web3InterfaceException "All of RPCs raise exception."))
      ∧ (∀ hc : countEscal wait schedules < schedules.length,
          (callTxLoop tp wait schedules).2.length = countEscal wait schedules + 1 ∧
          (callTxLoop tp wait schedules).1 =
            callTx wait (schedules.get ⟨countEscal wait schedules, hc⟩)) := by
  intro schedules
  induction schedules with
  | nil =>
    refine ⟨?_, ?_, ?_⟩
    · intro q hq
      simp [callTxLoop] at hq
    · intro _
      exact ⟨rfl, rfl⟩
    · intro hc
      simp [countEscal] at hc
  | cons sch rest ih =>
    rcases ih with ⟨ih1, ih2, ih3⟩
    cases hct : callTx wait sch with
    | ok v =>
      have hloop : callTxLoop tp wait (sch :: rest) = (.ok v, [tp]) := by
        simp only [callTxLoop, hct]
      have hcnt : countEscal wait (sch :: rest) = 0 := by
        simp only [countEscal, hct]
      refine ⟨?_, ?_, ?_⟩
      · intro q hq
        rw [hloop] at hq
        rcases List.mem_singleton.mp hq with rfl
        rfl
      · intro heq
        rw [hcnt] at heq
        simp at heq
      · intro hc
        constructor
        · rw [hloop, hcnt]
          rfl
        · have hfin : (⟨countEscal wait (sch :: rest), hc⟩ : Fin (sch :: rest).length) =
              ⟨0, Nat.succ_pos _⟩ := Fin.ext hcnt
          rw [hloop, hfin]
          exact hct.symm
    | error e =>
      by_cases hf : isinstance e fatalClasses = true
      · have hloop : callTxLoop tp wait (sch :: rest) = (.error e, [tp]) := by
          simp only [callTxLoop, hct, if_pos hf]
        have hcnt : countEscal wait (sch :: rest) = 0 := by
          simp only [countEscal, hct, if_pos hf]
        refine ⟨?_, ?_, ?_⟩
        · intro q hq
          rw [hloop] at hq
          rcases List.mem_singleton.mp hq with rfl
          rfl
        · intro heq
          rw [hcnt] at heq
          simp at heq
        · intro hc
          constructor
          · rw [hloop, hcnt]
            rfl
          · have hfin : (⟨countEscal wait (sch :: rest), hc⟩ :
                Fin (sch :: rest).length) = ⟨0, Nat.succ_pos _⟩ := Fin.ext hcnt
            rw [hloop, hfin]
            exact hct.symm
      · by_cases hesc : isinstance e escalClasses = true
        · have hloop : callTxLoop tp wait (sch :: rest) =
              ((callTxLoop tp wait rest).1, tp :: (callTxLoop tp wait rest).2) := by
            simp only [callTxLoop, hct, if_neg hf, if_pos hesc]
          have hcnt : countEscal wait (sch :: rest) = countEscal wait rest + 1 := by
            simp only [countEscal, hct, if_neg hf, if_pos hesc]
          refine ⟨?_, ?_, ?_⟩
          · intro q hq
            rw [hloop] at hq
            rcases List.mem_cons.mp hq with rfl | hq'
            · rfl
            · exact ih1 q hq'
          · intro heq
            rw [hcnt] at heq
            have heq' : countEscal wait rest = rest.length := by
              simpa using heq
            rcases ih2 heq' with ⟨hlen, hres⟩
            rw [hloop]
            constructor
            · simp [hlen]
            · exact hres
          · intro hc
            have hc2 : countEscal wait rest + 1 < rest.length + 1 := by
              rw [← hcnt]
              simpa using hc
            have hc' : countEscal wait rest < rest.length := Nat.lt_of_succ_lt_succ hc2
            rcases ih3 hc' with ⟨hlen, hres⟩
            constructor
            · rw [hloop, hcnt]
              simp [hlen]
            · have hfin : (⟨countEscal wait (sch :: rest), hc⟩ :
                  Fin (sch :: rest).length) =
                  ⟨countEscal wait rest + 1, hc2⟩ := Fin.ext hcnt
              rw [hloop, hfin]
              exact hres
        · have hloop : callTxLoop tp wait (sch :: rest) = (.error e, [tp]) := by
            simp only [callTxLoop, hct, if_neg hf, if_neg hesc]
          have hcnt : countEscal wait (sch :: rest) = 0 := by
            simp only [countEscal, hct, if_neg hf, if_neg hesc]
          refine ⟨?_, ?_, ?_⟩
          · intro q hq
            rw [hloop] at hq
            rcases List.mem_singleton.mp hq with rfl
            rfl
          · intro heq
            rw [hcnt] at heq
            simp at heq
          · intro hc
            constructor
            · rw [hloop, hcnt]
              rfl
            · have hfin : (⟨countEscal wait (sch :: rest), hc⟩ :
                  Fin (sch :: rest).length) = ⟨0, Nat.succ_pos _⟩ := Fin.ext hcnt
              rw [hloop, hfin]
              exact hct.symm

/-- C1 (amended): the nonce and the transaction parameters (stages 1-2) are
computed once and reused unchanged across sub-bracket escalation, but
escalation repeats from the build-and-sign stage (stage 3) inside
`__call_tx`, so one signed payload is produced per attempted sub-bracket
(all built from the same preserved tx parameters) rather than exactly one
per logical call; the loop escalates exactly on the five listed exception
classes and otherwise returns or raises the current attempt's outcome. -/
theorem tx_escalation_spec {τ σ : Type}
    (nonceView : Option (List (List (TaskOutcome ℕ))))
    (nonceTx : List (List (TaskOutcome ℕ))) (env : GasEnv) (bound : ℚ)
    (p : TxPriority) (method : Option GasEstimationMethod)
    (sender gasLimit waitForReceipt : ℕ) (schedules : List (TxSchedule τ σ))
    (n0 : ℕ) (gp0 : GasParams)
    (hn : getNonce nonceView nonceTx = .ok (some n0))
    (hg : getGasPrice env bound p method = .ok gp0) :
    callTxFunction nonceView nonceTx env bound p method sender gasLimit
        waitForReceipt schedules =
      callTxLoop ⟨sender, n0, gasLimit, env.chainId, gp0⟩ waitForReceipt schedules
    ∧ (∀ q ∈ (callTxLoop ⟨sender, n0, gasLimit, env.chainId, gp0⟩ waitForReceipt
          schedules).2, q = ⟨sender, n0, gasLimit, env.chainId, gp0⟩)
    ∧ (countEscal waitForReceipt schedules = schedules.length →
        (callTxLoop ⟨sender, n0, gasLimit, env.chainId, gp0⟩ waitForReceipt
            schedules).2.length = schedules.length ∧
        (callTxLoop ⟨sender, n0, gasLimit, env.chainId, gp0⟩ waitForReceipt
            schedules).1 =
          .error (.web3InterfaceException "All of RPCs raise exception."))
    ∧ (∀ hc : countEscal waitForReceipt schedules < schedules.length,
        (callTxLoop ⟨sender, n0, gasLimit, env.chainId, gp0⟩ waitForReceipt
            schedules).2.length = countEscal waitForReceipt schedules + 1 ∧
        (callTxLoop ⟨sender, n0, gasLimit, env.chainId, gp0⟩ waitForReceipt
            schedules).1 =
          callTx waitForReceipt
            (schedules.get ⟨countEscal waitForReceipt schedules, hc⟩)) := by
  refine ⟨?_, callTxLoop_spec _ _ _⟩
  simp only [callTxFunction, hn, hg]

/-- C1 witness: with nonce 5 from the view bracket and a fixed 7 GWei gas
estimation, the pipeline's loop runs on tx parameters built once from those
stages. -/
theorem tx_escalation_spec_witness :
    callTxFunction (some [[TaskOutcome.ok 5]]) []
        ⟨1, none, fun _ => 1, fun _ => none, [], false, [], fun _ => none, 7⟩
        26000 .low (some .fixed) 3 1000000 90
        ([⟨[[TaskOutcome.err (.connectionError "boom")]], []⟩,
          ⟨[[TaskOutcome.ok (1, 42)]], [[TaskOutcome.ok (1, 99)]]⟩] :
          List (TxSchedule ℕ ℕ)) =
      callTxLoop ⟨3, 5, 1000000, 1, .legacy (7 * 1 * 10 ^ 9)⟩ 90
        [⟨[[TaskOutcome.err (.connectionError "boom")]], []⟩,
         ⟨[[TaskOutcome.ok (1, 42)]], [[TaskOutcome.ok (1, 99)]]⟩] :=
  (tx_escalation_spec (some [[TaskOutcome.ok 5]]) []
    ⟨1, none, fun _ => 1, fun _ => none, [], false, [], fun _ => none, 7⟩
    26000 .low (some .fixed) 3 1000000 90
    [⟨[[TaskOutcome.err (.connectionError "boom")]], []⟩,
     ⟨[[TaskOutcome.ok (1, 42)]], [[TaskOutcome.ok (1, 99)]]⟩]
    5 (.legacy (7 * 1 * 10 ^ 9)) rfl rfl).1

/-- C1 counterexample: two transaction sub-brackets; the first fails its
broadcast race with `ConnectionError`, the second succeeds and confirms.
The pipeline succeeds but `_build_and_sign_transaction` ran twice, once per
attempted sub-bracket, so two signed payloads were produced, not exactly
one (both from the same nonce and tx parameters). -/
theorem single_signing_cex :
    (callTxFunction (some [[TaskOutcome.ok 5]]) []
        ⟨1, none, fun _ => 1, fun _ => none, [], false, [], fun _ => none, 7⟩
        26000 .low (some .fixed) 3 1000000 90
        ([⟨[[TaskOutcome.err (.connectionError "boom")]], []⟩,
          ⟨[[TaskOutcome.ok (1, 42)]], [[TaskOutcome.ok (1, 99)]]⟩] :
          List (TxSchedule ℕ ℕ))).2.length = 2
    ∧ (callTxFunction (some [[TaskOutcome.ok 5]]) []
        ⟨1, none, fun _ => 1, fun _ => none, [], false, [], fun _ => none, 7⟩
        26000 .low (some .fixed) 3 1000000 90
        ([⟨[[TaskOutcome.err (.connectionError "boom")]], []⟩,
          ⟨[[TaskOutcome.ok (1, 42)]], [[TaskOutcome.ok (1, 99)]]⟩] :
          List (TxSchedule ℕ ℕ))).1 = .ok (.receipt 99) := by
  constructor <;> rfl

end MRpc
